import Mathlib

/-!
Verification of the stellar-broker-client mediator module.

Strings from the JavaScript source are embedded as `List Char`.  JavaScript
`BigInt` values are embedded as `Int` (arbitrary precision in both worlds).
The JavaScript `number` amounts appearing in the reserve computation
(`reserveFeeAmount`, `feesReserve = reserveFeeAmount + 0.5 * subentries`,
parsed ledger balances) are all multiples of one stroop (`10^-7` display
units) in every scenario of the specification; on such values the IEEE-754
double arithmetic the source performs is exact, so those numbers are
embedded as exact `Int` stroop counts (the `* 10000000` scaling of the
source is the identity of this embedding).  Fallible code is embedded with
`Except`.
-/

deriving instance DecidableEq for Except

/-- Errors thrown by the embedded code.  Each constructor stands for one
`throw` site (or one JavaScript runtime `TypeError` / `RangeError`). -/
inductive JsErr
  | invalidFormat      -- TypeError('Invalid number format')
  | int64Overflow      -- TypeError('Invalid number: Int64 overflow')
  | uint64Overflow     -- TypeError('Invalid number: UInt64 overflow')
  | invalidAmount      -- TypeError('Invalid amount: ...') in fromStroops
  | typeError          -- runtime TypeError (method call on a non-string, etc.)
  | rangeError         -- runtime RangeError (BigInt of a non-integral number)
  | invalidAssetParam  -- errors.invalidQuoteParam in parseAsset
  | invalidSource      -- Error('Invalid source account')
  | invalidSellingAsset
  | invalidBuyingAsset
  | accountMissing     -- Error("Mediator account doesn't exist on the ledger")
  | insufficientXLM    -- Error('Insufficient XLM balance for selling amount + potential trading fees')
  | insufficientFees   -- Error('Insufficient XLM balance for potential trading fees')
  | insufficientSelling -- Error('Insufficient selling asset balance')
  | escrowNotFound     -- Error("Mediator account ... doesn't exist on the ledger")
  | notMediatorFor     -- Error('... is not a mediator account for ...')
  | submitFailed       -- Error('Failed to create mediator account')
  deriving DecidableEq, Repr

/-- Embedding of the regex character class `\d`. -/
def isDig (c : Char) : Bool := 48 ≤ c.toNat && c.toNat ≤ 57

/-- Numeric value of a digit character. -/
def charVal (c : Char) : Nat := c.toNat - 48

/-- One step of reading a decimal number left to right. -/
def digStep (a : Nat) (c : Char) : Nat := 10 * a + charVal c

/-- Value of a digit string, read left to right (the value `BigInt(s)`
produces on an all-digit string; `BigInt('')` is `0n`). -/
def digitsToNat (l : List Char) : Nat := l.foldl digStep 0

/-- Embedding of JavaScript `BigInt(s)` on the sign-free strings reaching it
in `toStroops` (characters are digits or commas there): all-digit strings
(including the empty string, which yields `0n`) convert, anything else throws
a `SyntaxError`. -/
def jsBigIntNat (l : List Char) : Option Nat :=
  if l.all isDig then some (digitsToNat l) else none

/-- Embedding of `value.split(sep, 2)` destructured as `[a, b]`: `a` is the
text before the first separator, `b` (when the separator occurs) the text
between the first and the second separator.  `value.split(sep)` destructured
to its first two elements yields the same pair. -/
def splitFirst (sep : Char) : List Char → List Char × Option (List Char)
  | [] => ([], none)
  | c :: rest =>
    if c = sep then ([], some (rest.takeWhile (fun d => d ≠ sep)))
    else
      let p := splitFirst sep rest
      (c :: p.1, p.2)

/-- Embedding of the test `/^-?[\d.,]+$/.test(value)` from `toStroops`. -/
def matchesNumRegex (l : List Char) : Bool :=
  let body := if l.head? = some '-' then l.tail else l
  !body.isEmpty && body.all (fun c => isDig c || c = '.' || c = ',')

/-- Embedding of `toStroops` (src/stroops.js) on string input.
Follows the source line by line: regex test, `split('.', 2)` with default
`'0'`, sign stripping, `BigInt(int) * 10000000n + BigInt(decimal.slice(0,7)
.padEnd(7,'0'))`, the two overflow checks, and the catch block that converts
a `BigInt` `SyntaxError` into `TypeError('Invalid number format')` when
`throwIfInvalid` is set and into `0n` otherwise. -/
def toStroopsStr (value : List Char) (throwIfInvalid : Bool) : Except JsErr Int :=
  if !matchesNumRegex value then
    if throwIfInvalid then .error .invalidFormat else .ok 0
  else
    let p := splitFirst '.' value
    let decimal := p.2.getD ['0']
    let negative := p.1.head? = some '-'
    let int := if negative then p.1.tail else p.1
    let d7 := decimal.take 7
    let padded := d7 ++ List.replicate (7 - d7.length) '0'
    match jsBigIntNat int, jsBigIntNat padded with
    | some i, some d =>
      let res : Int := (i : Int) * 10000000 + (d : Int)
      if negative then
        let r := -res
        if r < -(2 ^ 63 : Int) then
          if throwIfInvalid then .error .int64Overflow else .ok 0
        else .ok r
      else
        if res > (2 ^ 64 - 1 : Int) then
          if throwIfInvalid then .error .uint64Overflow else .ok 0
        else .ok res
    | _, _ => if throwIfInvalid then .error .invalidFormat else .ok 0

/-- A JavaScript value passed to `toStroops`.  A nonzero `number` is first
rendered by `value.toFixed(7)`; IEEE-754 formatting is not modelled, so the
`num` constructor carries the string `toFixed(7)` produced (the results
proved below hold for every possible such string). -/
inductive JsValue
  | str (s : List Char)
  | numZero
  | num (toFixed7 : List Char)
  | other
  deriving DecidableEq

/-- Embedding of `toStroops` (src/stroops.js) on an arbitrary value:
numbers equal to `0` return `0n` at once, other numbers are rendered with
`toFixed(7)` and fall through to the string path, non-strings fail the
`typeof` test. -/
def toStroops (value : JsValue) (throwIfInvalid : Bool) : Except JsErr Int :=
  match value with
  | .str s => toStroopsStr s throwIfInvalid
  | .numZero => .ok 0
  | .num s => toStroopsStr s throwIfInvalid
  | .other => if throwIfInvalid then .error .invalidFormat else .ok 0

/-- Decimal rendering of a natural number, with explicit fuel so that the
definition is structural.  `natToCharsAux fuel n` is the digit string of `n`
whenever `n < fuel` (empty for `n = 0`). -/
def natToCharsAux : Nat → Nat → List Char
  | 0, _ => []
  | fuel + 1, n =>
    if n = 0 then []
    else natToCharsAux fuel (n / 10) ++ [Nat.digitChar (n % 10)]

/-- Embedding of `BigInt.prototype.toString` (decimal, no sign). -/
def natToChars (n : Nat) : List Char :=
  if n = 0 then ['0'] else natToCharsAux (n + 1) n

/-- Embedding of `padStart(7, '0')`. -/
def padStart7 (l : List Char) : List Char := List.replicate (7 - l.length) '0' ++ l

/-- Embedding of `replace(/0+$/, '')`: strip all trailing zero characters. -/
def dropTrailingZeros (l : List Char) : List Char :=
  (l.reverse.dropWhile (fun c => c == '0')).reverse

/-- Embedding of `fromStroops` (src/stroops.js): negative input throws
`TypeError('Invalid amount: ...')`; otherwise the integer part is rendered,
and a nonzero remainder is appended as `'.' + fract.toString().padStart(7,
'0').replace(/0+$/, '')`. -/
def fromStroops (valueInStroops : Int) : Except JsErr (List Char) :=
  if valueInStroops < 0 then .error .invalidAmount
  else
    let n := valueInStroops.toNat
    let int := n / 10000000
    let fract := n % 10000000
    if fract = 0 then .ok (natToChars int)
    else .ok (natToChars int ++ '.' :: dropTrailingZeros (padStart7 (natToChars fract)))

/-- Prefix parse of a decimal literal, in stroops (`×10^7`).  Embeds both
`parseFloat` and the `Number` coercion of the source on the ledger balance
strings they are applied to (plain decimals with at most 7 fractional
digits, on which both agree and are exact); `none` stands for `NaN`, and
every comparison with `NaN` is false.  Fractional digits beyond the seventh
are truncated (below ledger precision). -/
def parseFloatStroops (s : List Char) : Option Int :=
  let (neg, rest) :=
    match s with
    | '-' :: r => (true, r)
    | '+' :: r => (false, r)
    | r => (false, r)
  let intD := rest.takeWhile isDig
  let rest2 := rest.dropWhile isDig
  let fracD :=
    match rest2 with
    | '.' :: r => r.takeWhile isDig
    | _ => []
  if intD.isEmpty && fracD.isEmpty then none
  else
    let f7 := fracD.take 7
    let mag : Int := digitsToNat intD * 10000000 + digitsToNat f7 * 10 ^ (7 - f7.length)
    some (if neg then -mag else mag)

/-- Embedding of `toStroops(s)` as the source calls it on ledger balance strings: without
the strict flag, extracting the (always present) result. -/
def toStroopsD (s : List Char) : Int :=
  match toStroopsStr s false with
  | .ok n => n
  | .error _ => 0

/-- A parsed Stellar SDK `Asset`. -/
inductive StellarAsset
  | native
  | issued (code issuer : List Char)
  deriving DecidableEq, Repr

/-- Embedding of `Asset.prototype.isNative`. -/
def StellarAsset.isNative : StellarAsset → Bool
  | .native => true
  | .issued _ _ => false

/-- A Horizon balance line, as the shims in test/mediator.test.js build them
and as Horizon serves them. -/
structure BalanceLine where
  asset_type : List Char
  asset_code : Option (List Char)
  asset_issuer : Option (List Char)
  balance : List Char
  deriving DecidableEq, Repr

/-- The argument passed where the source expects an asset string.
`Mediator.dispose` actually passes the whole balance-line object
(`convertToStellarAsset(balance)` in src/mediator.js), hence the `balA`
constructor; any non-string receiver makes the `asset.includes('-')` method
call throw a `TypeError`. -/
inductive AssetArg
  | strA (s : List Char)
  | balA (b : BalanceLine)
  | otherA
  deriving DecidableEq

/-- Embedding of the ASCII test `/^[a-zA-Z0-9]{1,12}$/` used for asset
codes. -/
def validAssetCode (code : List Char) : Bool :=
  !code.isEmpty && code.length ≤ 12 &&
    code.all (fun c => (65 ≤ c.toNat && c.toNat ≤ 90) || (97 ≤ c.toNat && c.toNat ≤ 122) || isDig c)

/-- ASCII lower-casing of one character (`String.prototype.toLowerCase`
restricted to the code alphabet). -/
def lowerChar (c : Char) : Char :=
  if 65 ≤ c.toNat && c.toNat ≤ 90 then Char.ofNat (c.toNat + 32) else c

/-- Modelled from the spec: `new Asset(code, issuer)` of
@stellar/stellar-sdk (a dependency whose source is not part of src/)
rejects a code failing `/^[a-zA-Z0-9]{1,12}$/`, rejects a missing issuer
unless the code lower-cases to `xlm` (which yields the native asset), and
rejects an issuer that is not a valid ed25519 public key.  Key validity is
abstracted as the `keyOk` parameter standing for
`StrKey.isValidEd25519PublicKey`. -/
def sdkAsset (keyOk : List Char → Bool) (code : Option (List Char)) (issuer : Option (List Char)) :
    Except JsErr StellarAsset :=
  match code with
  | none => .error .typeError
  | some c =>
    if !validAssetCode c then .error .typeError
    else
      match issuer with
      | none => if c.map lowerChar = "xlm".toList then .ok .native else .error .typeError
      | some i => if keyOk i then .ok (.issued c i) else .error .typeError

/-- Embedding of `convertToStellarAsset` (src/asset.js): the literals
`'xlm'`/`'XLM'` give the native asset; otherwise the string is split on
`'-'` when it contains one, else on `':'`, and the first two segments are
handed to the SDK `Asset` constructor.  A non-string argument crashes at
the `asset.includes('-')` call. -/
def convertToStellarAsset (keyOk : List Char → Bool) : AssetArg → Except JsErr StellarAsset
  | .strA s =>
    if s = "xlm".toList ∨ s = "XLM".toList then .ok .native
    else
      let p := if s.contains '-' then splitFirst '-' s else splitFirst ':' s
      sdkAsset keyOk (some p.1) p.2
  | .balA _ => .error .typeError
  | .otherA => .error .typeError

/-- Embedding of `validateCode` (src/asset.js). -/
def validateCode (code : List Char) : Except JsErr (List Char) :=
  if validAssetCode code then .ok code else .error .invalidAssetParam

/-- Embedding of `validateAccount` (src/asset.js): a missing or empty
account is falsy; otherwise `StrKey.isValidEd25519PublicKey` (the `keyOk`
parameter) decides. -/
def validateAccount (keyOk : List Char → Bool) (account : Option (List Char)) :
    Except JsErr (List Char) :=
  match account with
  | none => .error .invalidAssetParam
  | some a => if !a.isEmpty && keyOk a then .ok a else .error .invalidAssetParam

/-- Embedding of `parseAsset` (src/asset.js).  Note the colon branch
rebuilds `code + '-' + issuer` while the dash branch returns the original
string unchanged. -/
def parseAsset (keyOk : List Char → Bool) (asset : AssetArg) : Except JsErr (List Char) :=
  match asset with
  | .strA s =>
    if s = "XLM".toList ∨ s = "xlm".toList ∨ s = "native".toList then .ok "XLM".toList
    else if s.contains ':' then do
      let p := splitFirst ':' s
      let code ← validateCode p.1
      let issuer ← validateAccount keyOk p.2
      .ok (code ++ '-' :: issuer)
    else if s.contains '-' then do
      let p := splitFirst '-' s
      let _ ← validateCode p.1
      let _ ← validateAccount keyOk p.2
      .ok s
    else .error .invalidAssetParam
  | .balA _ => .error .invalidAssetParam
  | .otherA => .error .invalidAssetParam

/-- A Horizon account signer record. -/
structure AccountSigner where
  key : List Char
  weight : Int
  type : List Char
  deriving DecidableEq, Repr

/-- Horizon account thresholds. -/
structure Thresholds where
  low_threshold : Int
  med_threshold : Int
  high_threshold : Int
  deriving DecidableEq, Repr

/-- A Horizon account response, restricted to the fields mediator.js
reads. -/
structure AccountResponse where
  account_id : List Char
  balances : List BalanceLine
  signers : List AccountSigner
  thresholds : Thresholds
  deriving DecidableEq, Repr

/-- Embedding of `findTrustline` (src/mediator.js). -/
def findTrustline (account : AccountResponse) (asset : StellarAsset) : Option BalanceLine :=
  account.balances.find? (fun b =>
    match asset with
    | .native => b.asset_type == "native".toList
    | .issued code issuer => b.asset_code == some code && b.asset_issuer == some issuer)

/-- A Stellar operation, restricted to the fields the source sets.  Amount
and limit fields carry the exact stroop value the SDK serialises from the
strings the source passes. -/
inductive Operation
  | createAccount (source destination : List Char) (startingBalance : Int)
  | changeTrust (source : List Char) (line : StellarAsset) (limit : Option Int)
  | payment (source : List Char) (asset : StellarAsset) (destination : List Char) (amount : Int)
  | setOptions (source : List Char) (inflationDest homeDomain : Option (List Char))
      (masterWeight lowThreshold medThreshold highThreshold : Option Int)
      (signer : Option ((List Char) × Int))
  | accountMerge (source destination : List Char)
  deriving DecidableEq, Repr

/-- Whether an operation is a set-options (signer-setup) operation. -/
def isSetOptionsOp : Operation → Bool
  | .setOptions _ _ _ _ _ _ _ _ => true
  | _ => false

/-- The localStorage registry of live mediator accounts: association list
from storage key to initiator address. -/
abbrev Registry := List ((List Char) × (List Char))

/-- Embedding of `localStorage.removeItem`. -/
def lsRemove (reg : Registry) (key : List Char) : Registry :=
  reg.filter (fun e => !(e.1 == key))

/-- Embedding of `localStorage.setItem`. -/
def lsSet (reg : Registry) (key value : List Char) : Registry :=
  (key, value) :: lsRemove reg key

/-- Embedding of `localStorage.getItem`. -/
def lsGet (reg : Registry) (key : List Char) : Option (List Char) :=
  (reg.find? (fun e => e.1 == key)).map (fun e => e.2)

/-- The home domain string `mediator.stellar.broker`. -/
def homeDomainChars : List Char := "mediator.stellar.broker".toList

/-- The state of a `Mediator` instance (its constructor-set fields).
`reserveFeeStroops` holds the constructor's `reserveFeeAmount` number in
stroops (see the file comment; the default argument `5` is `50000000`
here). -/
structure MediatorCfg where
  source : List Char
  sellingAsset : StellarAsset
  buyingAsset : StellarAsset
  sellingAmount : Int
  reserveFeeStroops : Int
  mediatorAddress : Option (List Char)
  storagePref : List Char
  deriving DecidableEq, Repr

/-- Embedding of the `Mediator` constructor (src/mediator.js).  Note that
`this.sellingAmount = toStroops(sellingAmount)` does NOT pass the
`throwIfInvalid` flag, so the call never throws and the surrounding
`catch` that would report `'Invalid selling amount'` is unreachable. -/
def mediatorNew (keyOk : List Char → Bool) (source : List Char)
    (sellingAsset buyingAsset : AssetArg) (sellingAmount : JsValue)
    (reserveFeeStroops : Int) : Except JsErr MediatorCfg :=
  if !keyOk source then .error .invalidSource
  else
    match convertToStellarAsset keyOk sellingAsset with
    | .error _ => .error .invalidSellingAsset
    | .ok sa =>
      match convertToStellarAsset keyOk buyingAsset with
      | .error _ => .error .invalidBuyingAsset
      | .ok ba =>
        match toStroops sellingAmount false with
        | .error _ => .error .invalidAmount
        | .ok amt => .ok ⟨source, sa, ba, amt, reserveFeeStroops, none, "msb_".toList⟩

/-- The subentry count of `Mediator.init`:
`2 + sourceAccount.signers.length - 1 + [selling, buying].filter(nonNative).length`. -/
def initSubentries (m : MediatorCfg) (sourceAccount : AccountResponse) : Nat :=
  2 + sourceAccount.signers.length - 1 +
    ([m.sellingAsset, m.buyingAsset].filter (fun a => !a.isNative)).length

/-- The operation list `Mediator.init` builds (src/mediator.js lines
138-249), given the loaded source-account snapshot and the freshly
generated mediator address.  `feesReserve = reserveFeeAmount + 0.5 *
subentries` is computed in stroops, where `0.5` display units are
`5000000`. -/
def initOps (m : MediatorCfg) (sourceAccount : AccountResponse) (mediatorAddress : List Char) :
    Except JsErr (List Operation) := do
  let feesReserve : Int := m.reserveFeeStroops + 5000000 * (initSubentries m sourceAccount : Int)
  let fundOps ←
    if m.sellingAsset.isNative then
      let amount := m.sellingAmount + feesReserve
      match findTrustline sourceAccount .native with
      | none => .error JsErr.typeError
      | some tl =>
        if toStroopsD tl.balance < amount then .error .insufficientXLM
        else
          match fromStroops amount with
          | .error e => .error e
          | .ok _ => .ok [Operation.createAccount m.source mediatorAddress amount]
    else
      match findTrustline sourceAccount .native with
      | none => .error JsErr.typeError
      | some xtl =>
        let short :=
          match parseFloatStroops xtl.balance with
          | some v => decide (v < feesReserve)
          | none => false
        if short then .error .insufficientFees
        else
          let ca := Operation.createAccount m.source mediatorAddress feesReserve
          match findTrustline sourceAccount m.sellingAsset with
          | none => .error .insufficientSelling
          | some stl =>
            if toStroopsD stl.balance < m.sellingAmount then .error .insufficientSelling
            else
              match fromStroops m.sellingAmount with
              | .error e => .error e
              | .ok _ =>
                .ok [ca, Operation.changeTrust mediatorAddress m.sellingAsset none,
                  Operation.payment m.source m.sellingAsset mediatorAddress m.sellingAmount]
  let buyOps :=
    if !m.buyingAsset.isNative then
      Operation.changeTrust mediatorAddress m.buyingAsset none ::
        (if (findTrustline sourceAccount m.buyingAsset).isNone then
          [Operation.changeTrust m.source m.buyingAsset none]
        else [])
    else []
  let signerOps ←
    if sourceAccount.signers.length > 1 then
      match sourceAccount.signers.filter (fun s => s.type == "ed25519_public_key".toList) with
      | [] => .error JsErr.typeError
      | s0 :: rest =>
        .ok (Operation.setOptions mediatorAddress (some m.source) (some homeDomainChars)
            (some (max 1 (max sourceAccount.thresholds.high_threshold
              sourceAccount.thresholds.med_threshold)))
            (some sourceAccount.thresholds.low_threshold)
            (some sourceAccount.thresholds.med_threshold)
            (some sourceAccount.thresholds.high_threshold)
            (some (s0.key, max 1 s0.weight)) ::
          rest.map (fun s => Operation.setOptions mediatorAddress none none none none none none
            (some (s.key, max 1 s.weight))))
    else
      .ok [Operation.setOptions mediatorAddress none (some homeDomainChars)
        (some 1) (some 1) (some 1) (some 1) (some (m.source, 1))]
  .ok (fundOps ++ buyOps ++ signerOps)

/-- Embedding of `Mediator.init`: load the source account, build the
operations, store the registry record, submit.  `submitOk` is whether the
Horizon submission succeeds.  Note the registry record is written before
the transaction is confirmed. -/
def init (m : MediatorCfg) (sourceAccount : Option AccountResponse) (mediatorAddress : List Char)
    (submitOk : Bool) (reg : Registry) : Except JsErr (List Operation) × Registry :=
  match sourceAccount with
  | none => (.error .accountMissing, reg)
  | some acc =>
    match initOps m acc mediatorAddress with
    | .error e => (.error e, reg)
    | .ok ops =>
      let reg2 := lsSet reg (m.storagePref ++ mediatorAddress) m.source
      if submitOk then (.ok ops, reg2) else (.error .submitFailed, reg2)

/-- The per-balance loop of `Mediator.dispose`: native lines are skipped,
every other line is converted with `convertToStellarAsset(balance)` —
passing the balance-line OBJECT, whose lack of string methods makes the
conversion throw — then a payment (when the balance is positive) and a
limit-0 change-trust would be pushed. -/
def disposeOps (keyOk : List Char → Bool) (address source : List Char) :
    List BalanceLine → Except JsErr (List Operation)
  | [] => .ok []
  | b :: rest =>
    if b.asset_type == "native".toList then disposeOps keyOk address source rest
    else
      match convertToStellarAsset keyOk (.balA b) with
      | .error e => .error e
      | .ok asset => do
        let tail ← disposeOps keyOk address source rest
        let positive :=
          match parseFloatStroops b.balance with
          | some v => decide (0 < v)
          | none => false
        let payOps :=
          if positive then
            [Operation.payment address asset source ((parseFloatStroops b.balance).getD 0)]
          else []
        .ok (payOps ++ Operation.changeTrust address asset (some 0) :: tail)

/-- Embedding of `Mediator.dispose` (src/mediator.js lines 263-310).
Returns the result, the updated registry, and whether a transaction was
submitted.  `mediatorAccount` / `sourceAccount` are the two possible
`loadAccount` results (`none` = not found), `submitOk` whether the
submission succeeds. -/
def dispose (keyOk : List Char → Bool) (m : MediatorCfg) (address : List Char)
    (mediatorAccount sourceAccount : Option AccountResponse) (submitOk : Bool) (reg : Registry) :
    Except JsErr (List Operation) × Registry × Bool :=
  match mediatorAccount with
  | none => (.error .escrowNotFound, lsRemove reg (m.storagePref ++ address), false)
  | some acc =>
    if (acc.signers.find? (fun s => s.key == m.source)).isNone then
      (.error .notMediatorFor, reg, false)
    else
      match disposeOps keyOk address m.source acc.balances with
      | .error e => (.error e, reg, false)
      | .ok ops0 =>
        if m.mediatorAddress ≠ some address ∧ sourceAccount = none then
          (.error .typeError, reg, false)
        else if submitOk then
          (.ok (ops0 ++ [Operation.accountMerge address m.source]),
            lsRemove reg (m.storagePref ++ address), true)
        else (.error .submitFailed, reg, true)

/-- The dispose outcomes after which the registry entry is removed:
success, or the early not-found exit. -/
def removesEntry : Except JsErr (List Operation) → Bool
  | .ok _ => true
  | .error .escrowNotFound => true
  | .error _ => false

/-! ## Specification-side definitions

These definitions follow the spec's wording (they are the comparison
targets of the refinement-style claims); everything above follows the
source. -/

/-- Canonical form of an integer-part digit string: leading zeros
stripped, `"0"` when every digit is zero. -/
def canonInt (l : List Char) : List Char :=
  let t := l.dropWhile (fun c => c == '0')
  if t.isEmpty then ['0'] else t

/-- The unsigned amount string with integer digits `intDs` and fractional
digits `fracDs` (no dot when `fracDs` is empty). -/
def amountString (intDs fracDs : List Char) : List Char :=
  intDs ++ if fracDs.isEmpty then [] else '.' :: fracDs

/-- The canonical decimal rendering the spec claims for
`decode(encode(s))`: integer part normalised, trailing fractional zeros
stripped, a zero fraction omitted together with its dot. -/
def canonicalAmount (intDs fracDs : List Char) : List Char :=
  canonInt intDs ++
    (let f := dropTrailingZeros fracDs
     if f.isEmpty then [] else '.' :: f)

/-- The amount grammar named by the spec: `-?digits(.digits)?`. -/
def specGrammar (s : List Char) : Bool :=
  let body := if s.head? == some '-' then s.tail else s
  let ip := body.takeWhile isDig
  let rest := body.dropWhile isDig
  !ip.isEmpty &&
    (rest.isEmpty ||
      (rest.head? == some '.' && !rest.tail.isEmpty && rest.tail.all isDig))

/-- The format `toStroops` accepts: the `-?[\d.,]+` regex passes, the text
before the first dot (past the optional sign) is all digits, and the first
seven characters of the text between the first and second dot are all
digits. -/
def acceptedFormat (s : List Char) : Bool :=
  matchesNumRegex s &&
    (let p := splitFirst '.' s
     let int := if p.1.head? = some '-' then p.1.tail else p.1
     let d7 := (p.2.getD ['0']).take 7
     int.all isDig && d7.all isDig)

/-- The signed stroop value encoded from an accepted string: integer part
times `10^7` plus the fraction padded to seven digits, negated after a
leading minus sign. -/
def encodedValue (s : List Char) : Int :=
  let p := splitFirst '.' s
  let neg := p.1.head? = some '-'
  let int := if neg then p.1.tail else p.1
  let d7 := (p.2.getD ['0']).take 7
  let mag : Int :=
    digitsToNat int * 10000000 + digitsToNat (d7 ++ List.replicate (7 - d7.length) '0')
  if neg then -mag else mag

/-- Split at the FIRST occurrence of `sep`, keeping the whole remainder
(used to state what a dash-canonical asset string is). -/
def splitOnce (sep : Char) : List Char → Option (List Char × List Char)
  | [] => none
  | c :: rest =>
    if c == sep then some ([], rest)
    else (splitOnce sep rest).map (fun p => (c :: p.1, p.2))

/-- The claim's dash-canonical asset form: `CODE-ISSUER` with a wellformed
code and a valid issuer key (the code alphabet has no dash, so the split
at the first dash is the only candidate decomposition). -/
def isDashCanonical (keyOk : List Char → Bool) (s : List Char) : Bool :=
  match splitOnce '-' s with
  | some p => validAssetCode p.1 && keyOk p.2
  | none => false

/-! ## Arithmetic of decimal digit strings -/

theorem foldl_digStep (l : List Char) : ∀ a : Nat,
    l.foldl digStep a = a * 10 ^ l.length + l.foldl digStep 0 := by
  induction l with
  | nil => intro a; simp
  | cons c t ih =>
    intro a
    simp only [List.foldl_cons, List.length_cons]
    rw [ih (digStep a c), ih (digStep 0 c)]
    simp only [digStep]
    ring

theorem digitsToNat_cons (c : Char) (t : List Char) :
    digitsToNat (c :: t) = charVal c * 10 ^ t.length + digitsToNat t := by
  simp only [digitsToNat, List.foldl_cons]
  rw [foldl_digStep]
  simp [digStep]

theorem digitsToNat_append (l₁ l₂ : List Char) :
    digitsToNat (l₁ ++ l₂) = digitsToNat l₁ * 10 ^ l₂.length + digitsToNat l₂ := by
  simp only [digitsToNat, List.foldl_append]
  rw [foldl_digStep]

theorem charVal_lt_ten (c : Char) (h : isDig c = true) : charVal c < 10 := by
  simp only [isDig, Bool.and_eq_true, decide_eq_true_eq] at h
  simp only [charVal]
  omega

theorem char_eq_of_toNat_eq (c d : Char) (h : c.toNat = d.toNat) : c = d :=
  Char.eq_of_val_eq (UInt32.ext h)

theorem one_le_charVal (c : Char) (h : isDig c = true) (h0 : c ≠ '0') : 1 ≤ charVal c := by
  simp only [isDig, Bool.and_eq_true, decide_eq_true_eq] at h
  have h48 : c.toNat ≠ 48 := fun hn => h0 (char_eq_of_toNat_eq c '0' hn)
  simp only [charVal]
  omega

theorem charVal_inj (c d : Char) (hc : isDig c = true) (hd : isDig d = true)
    (h : charVal c = charVal d) : c = d := by
  simp only [isDig, Bool.and_eq_true, decide_eq_true_eq] at hc hd
  simp only [charVal] at h
  exact char_eq_of_toNat_eq c d (by omega)

theorem digitsToNat_lt (l : List Char) (h : ∀ c ∈ l, isDig c = true) :
    digitsToNat l < 10 ^ l.length := by
  induction l with
  | nil => simp [digitsToNat]
  | cons c t ih =>
    rw [digitsToNat_cons]
    have h1 := charVal_lt_ten c (h c (by simp))
    have h2 := ih (fun x hx => h x (by simp [hx]))
    have h3 : charVal c * 10 ^ t.length ≤ 9 * 10 ^ t.length :=
      Nat.mul_le_mul_right _ (by omega)
    simp only [List.length_cons, pow_succ]
    omega

theorem le_digitsToNat (c : Char) (t : List Char) (hc : isDig c = true) (h0 : c ≠ '0') :
    10 ^ t.length ≤ digitsToNat (c :: t) := by
  rw [digitsToNat_cons]
  have h1 := one_le_charVal c hc h0
  have h2 : 1 * 10 ^ t.length ≤ charVal c * 10 ^ t.length :=
    Nat.mul_le_mul_right _ h1
  omega

theorem digitsToNat_replicate_zero (k : Nat) : digitsToNat (List.replicate k '0') = 0 := by
  induction k with
  | zero => rfl
  | succ n ih =>
    rw [List.replicate_succ, digitsToNat_cons, ih]
    have : charVal '0' = 0 := rfl
    simp [this]

theorem digitsToNat_append_zeros (l : List Char) (k : Nat) :
    digitsToNat (l ++ List.replicate k '0') = digitsToNat l * 10 ^ k := by
  rw [digitsToNat_append, digitsToNat_replicate_zero, List.length_replicate]
  omega

theorem digitsToNat_zeros_append (k : Nat) (l : List Char) :
    digitsToNat (List.replicate k '0' ++ l) = digitsToNat l := by
  rw [digitsToNat_append, digitsToNat_replicate_zero]
  simp

theorem digitsToNat_eq_zero (l : List Char) (h : ∀ c ∈ l, isDig c = true)
    (hv : digitsToNat l = 0) : ∀ c ∈ l, c = '0' := by
  induction l with
  | nil => simp
  | cons c t ih =>
    rw [digitsToNat_cons] at hv
    have hsplit : charVal c * 10 ^ t.length = 0 ∧ digitsToNat t = 0 := by omega
    have hpow : 0 < 10 ^ t.length := pow_pos (by omega) _
    have hc0 : charVal c = 0 := by
      rcases Nat.mul_eq_zero.mp hsplit.1 with h1 | h1
      · exact h1
      · omega
    have hc : c = '0' := by
      by_contra hne
      have := one_le_charVal c (h c (by simp)) hne
      omega
    intro x hx
    rcases List.mem_cons.mp hx with h1 | h1
    · exact h1 ▸ hc
    · exact ih (fun y hy => h y (by simp [hy])) hsplit.2 x h1

theorem charVal_digitChar (m : Nat) (h : m < 10) : charVal (Nat.digitChar m) = m := by
  interval_cases m <;> decide

theorem isDig_digitChar (m : Nat) (h : m < 10) : isDig (Nat.digitChar m) = true := by
  interval_cases m <;> decide

theorem digitChar_ne_zero (m : Nat) (h : m < 10) (h0 : m ≠ 0) : Nat.digitChar m ≠ '0' := by
  interval_cases m <;> simp_all <;> decide

/-! ## Correctness of the decimal renderer -/

theorem natToCharsAux_zero (fuel : Nat) : natToCharsAux fuel 0 = [] := by
  cases fuel <;> simp [natToCharsAux]

theorem natToCharsAux_isDig : ∀ fuel n, n < fuel →
    ∀ c ∈ natToCharsAux fuel n, isDig c = true := by
  intro fuel
  induction fuel with
  | zero => intro n h; omega
  | succ f ih =>
    intro n h c hmem
    by_cases h0 : n = 0
    · subst h0; rw [natToCharsAux_zero] at hmem; simp at hmem
    · have hdiv : n / 10 < f :=
        Nat.lt_of_lt_of_le (Nat.div_lt_self (by omega) (by omega)) (by omega)
      simp only [natToCharsAux, if_neg h0] at hmem
      rcases List.mem_append.mp hmem with h1 | h1
      · exact ih (n / 10) hdiv c h1
      · simp at h1
        subst h1
        exact isDig_digitChar _ (Nat.mod_lt _ (by omega))

theorem natToCharsAux_val : ∀ fuel n, n < fuel →
    digitsToNat (natToCharsAux fuel n) = n := by
  intro fuel
  induction fuel with
  | zero => intro n h; omega
  | succ f ih =>
    intro n h
    by_cases h0 : n = 0
    · subst h0; rw [natToCharsAux_zero]; rfl
    · have hdiv : n / 10 < f :=
        Nat.lt_of_lt_of_le (Nat.div_lt_self (by omega) (by omega)) (by omega)
      simp only [natToCharsAux, if_neg h0]
      rw [digitsToNat_append, ih (n / 10) hdiv]
      have h1 : digitsToNat [Nat.digitChar (n % 10)] = charVal (Nat.digitChar (n % 10)) := by
        rw [show [Nat.digitChar (n % 10)] = Nat.digitChar (n % 10) :: [] from rfl,
          digitsToNat_cons]
        simp [digitsToNat]
      rw [h1, charVal_digitChar _ (Nat.mod_lt _ (by omega))]
      simp only [List.length_singleton, pow_one]
      omega

theorem natToCharsAux_head : ∀ fuel n, n < fuel → n ≠ 0 →
    natToCharsAux fuel n ≠ [] ∧ (natToCharsAux fuel n).head? ≠ some '0' := by
  intro fuel
  induction fuel with
  | zero => intro n h; omega
  | succ f ih =>
    intro n h h0
    have hdiv : n / 10 < f :=
      Nat.lt_of_lt_of_le (Nat.div_lt_self (by omega) (by omega)) (by omega)
    simp only [natToCharsAux, if_neg h0]
    by_cases hq : n / 10 = 0
    · have hn10 : n < 10 := by omega
      have hmod : n % 10 = n := Nat.mod_eq_of_lt hn10
      rw [hq, natToCharsAux_zero]
      simp only [List.nil_append, ne_eq, List.head?_cons]
      refine ⟨by simp, ?_⟩
      intro hcontra
      exact digitChar_ne_zero (n % 10) (Nat.mod_lt _ (by omega)) (by omega)
        (by simpa using hcontra)
    · obtain ⟨hne, hh⟩ := ih (n / 10) hdiv hq
      cases hx : natToCharsAux f (n / 10) with
      | nil => exact absurd hx hne
      | cons a t =>
        rw [hx] at hh
        simp only [List.cons_append, ne_eq, List.head?_cons]
        exact ⟨by simp, by simpa using hh⟩

theorem natToCharsAux_len : ∀ fuel n k, n < fuel → n < 10 ^ k →
    (natToCharsAux fuel n).length ≤ k := by
  intro fuel
  induction fuel with
  | zero => intro n k h; omega
  | succ f ih =>
    intro n k h hk
    by_cases h0 : n = 0
    · subst h0; rw [natToCharsAux_zero]; simp
    · have hdiv : n / 10 < f :=
        Nat.lt_of_lt_of_le (Nat.div_lt_self (by omega) (by omega)) (by omega)
      cases k with
      | zero => simp at hk; omega
      | succ k' =>
        have hk' : n / 10 < 10 ^ k' := by
          rw [Nat.div_lt_iff_lt_mul (by omega)]
          calc n < 10 ^ (k' + 1) := hk
          _ = 10 ^ k' * 10 := by ring
        simp only [natToCharsAux, if_neg h0, List.length_append, List.length_singleton]
        have := ih (n / 10) k' hdiv hk'
        omega

theorem natToChars_isDig (n : Nat) : ∀ c ∈ natToChars n, isDig c = true := by
  unfold natToChars
  by_cases h0 : n = 0
  · simp [h0]; decide
  · rw [if_neg h0]
    exact natToCharsAux_isDig (n + 1) n (by omega)

theorem natToChars_val (n : Nat) : digitsToNat (natToChars n) = n := by
  unfold natToChars
  by_cases h0 : n = 0
  · simp [h0]; decide
  · rw [if_neg h0]
    exact natToCharsAux_val (n + 1) n (by omega)

theorem natToChars_ne_nil (n : Nat) : natToChars n ≠ [] := by
  unfold natToChars
  by_cases h0 : n = 0
  · simp [h0]
  · rw [if_neg h0]
    exact (natToCharsAux_head (n + 1) n (by omega) h0).1

theorem natToChars_head (n : Nat) (h : n ≠ 0) : (natToChars n).head? ≠ some '0' := by
  unfold natToChars
  rw [if_neg h]
  exact (natToCharsAux_head (n + 1) n (by omega) h).2

theorem natToChars_len (n k : Nat) (h1 : 0 < k) (h2 : n < 10 ^ k) :
    (natToChars n).length ≤ k := by
  unfold natToChars
  by_cases h0 : n = 0
  · simp [h0]; omega
  · rw [if_neg h0]
    exact natToCharsAux_len (n + 1) n k (by omega) h2

/-! ## Uniqueness of fixed-length decimal representations -/

theorem digits_unique : ∀ l₁ l₂ : List Char, l₁.length = l₂.length →
    (∀ c ∈ l₁, isDig c = true) → (∀ c ∈ l₂, isDig c = true) →
    digitsToNat l₁ = digitsToNat l₂ → l₁ = l₂ := by
  intro l₁
  induction l₁ with
  | nil =>
    intro l₂ hlen _ _ _
    cases l₂ with
    | nil => rfl
    | cons d u => simp at hlen
  | cons c t ih =>
    intro l₂ hlen h1 h2 hv
    cases l₂ with
    | nil => simp at hlen
    | cons d u =>
      simp only [List.length_cons, Nat.add_right_cancel_iff] at hlen
      rw [digitsToNat_cons, digitsToNat_cons, hlen] at hv
      have hdt : digitsToNat t < 10 ^ u.length := by
        rw [← hlen]; exact digitsToNat_lt t (fun x hx => h1 x (by simp [hx]))
      have hdu : digitsToNat u < 10 ^ u.length :=
        digitsToNat_lt u (fun x hx => h2 x (by simp [hx]))
      have hP : 0 < 10 ^ u.length := pow_pos (by omega) _
      have hcv : charVal c = charVal d := by
        have e1 : (charVal c * 10 ^ u.length + digitsToNat t) / 10 ^ u.length = charVal c := by
          rw [Nat.mul_comm, Nat.mul_add_div hP, Nat.div_eq_of_lt hdt]
          omega
        have e2 : (charVal d * 10 ^ u.length + digitsToNat u) / 10 ^ u.length = charVal d := by
          rw [Nat.mul_comm, Nat.mul_add_div hP, Nat.div_eq_of_lt hdu]
          omega
        rw [← e1, ← e2, hv]
      have hrest : digitsToNat t = digitsToNat u := by
        rw [hcv] at hv
        omega
      have hcd : c = d :=
        charVal_inj c d (h1 c (by simp)) (h2 d (by simp)) hcv
      rw [hcd, ih u hlen (fun x hx => h1 x (by simp [hx])) (fun x hx => h2 x (by simp [hx])) hrest]

theorem pow_len_unique (v a b : Nat) (ha1 : 10 ^ a ≤ v) (ha2 : v < 10 ^ (a + 1))
    (hb1 : 10 ^ b ≤ v) (hb2 : v < 10 ^ (b + 1)) : a = b := by
  by_contra hne
  rcases Nat.lt_or_ge a b with h | h
  · have : 10 ^ (a + 1) ≤ 10 ^ b := Nat.pow_le_pow_right (by omega) (by omega)
    omega
  · have hlt : b < a := by omega
    have : 10 ^ (b + 1) ≤ 10 ^ a := Nat.pow_le_pow_right (by omega) (by omega)
    omega

/-! ## Leading and trailing zero normalisation -/

theorem dropWhile_zeros_spec (l : List Char) :
    ∃ k, l = List.replicate k '0' ++ l.dropWhile (fun c => c == '0') ∧
      ∀ c t, l.dropWhile (fun c => c == '0') = c :: t → c ≠ '0' := by
  refine ⟨(l.takeWhile (fun c => c == '0')).length, ?_, ?_⟩
  · conv_lhs => rw [← List.takeWhile_append_dropWhile (p := fun c => c == '0') (l := l)]
    have : l.takeWhile (fun c => c == '0') =
        List.replicate (l.takeWhile (fun c => c == '0')).length '0' :=
      List.eq_replicate_of_mem (fun b hb => by
        have := List.mem_takeWhile_imp hb
        simpa using this)
    rw [← this]
  · intro c t hct
    have := List.head?_dropWhile_not (fun c => c == '0') l
    rw [hct] at this
    simpa using this

theorem canonInt_spec (l : List Char) (h : ∀ c ∈ l, isDig c = true) :
    natToChars (digitsToNat l) = canonInt l := by
  obtain ⟨k, hdec, hhead⟩ := dropWhile_zeros_spec l
  cases ht : l.dropWhile (fun c => c == '0') with
  | nil =>
    rw [ht] at hdec
    have hv0 : digitsToNat l = 0 := by
      rw [hdec, List.append_nil, digitsToNat_replicate_zero]
    rw [hv0]
    simp [canonInt, ht, natToChars]
  | cons c u =>
    rw [ht] at hdec hhead
    have hc0 : c ≠ '0' := hhead c u rfl
    have hval : digitsToNat l = digitsToNat (c :: u) := by
      rw [hdec, digitsToNat_zeros_append]
    have htdig : ∀ x ∈ c :: u, isDig x = true := by
      intro x hx
      exact h x (by rw [hdec]; exact List.mem_append_right _ hx)
    have hlow : 10 ^ u.length ≤ digitsToNat (c :: u) :=
      le_digitsToNat c u (htdig c (by simp)) hc0
    have hup : digitsToNat (c :: u) < 10 ^ (u.length + 1) := by
      simpa using digitsToNat_lt _ htdig
    have hne : digitsToNat (c :: u) ≠ 0 := by
      have : 0 < 10 ^ u.length := pow_pos (by omega) _
      omega
    have hvne : digitsToNat l ≠ 0 := by rw [hval]; exact hne
    have hrdig := natToChars_isDig (digitsToNat l)
    have hrval := natToChars_val (digitsToNat l)
    have hrne := natToChars_ne_nil (digitsToNat l)
    have hrhead := natToChars_head (digitsToNat l) hvne
    cases hr : natToChars (digitsToNat l) with
    | nil => exact absurd hr hrne
    | cons rc ru =>
      rw [hr] at hrval hrhead
      have hrc0 : rc ≠ '0' := by
        intro hcontra
        exact hrhead (by simp [hcontra])
      have hrdig' : ∀ x ∈ rc :: ru, isDig x = true := by
        intro x hx; rw [← hr] at hx; exact hrdig x hx
      have hrlow : 10 ^ ru.length ≤ digitsToNat (rc :: ru) :=
        le_digitsToNat rc ru (hrdig' rc (by simp)) hrc0
      have hrup : digitsToNat (rc :: ru) < 10 ^ (ru.length + 1) := by
        simpa using digitsToNat_lt _ hrdig'
      have hveq : digitsToNat (rc :: ru) = digitsToNat (c :: u) := by
        rw [hrval, hval]
      have hlen : ru.length = u.length := by
        apply pow_len_unique (digitsToNat (c :: u))
        · rw [← hveq]; exact hrlow
        · rw [← hveq]; exact hrup
        · exact hlow
        · exact hup
      have heq : rc :: ru = c :: u :=
        digits_unique _ _ (by simp [hlen]) hrdig' htdig hveq
      rw [heq]
      simp [canonInt, ht]

/-! ## Trailing-zero stripping -/

theorem dropWhile_zeros_append (k : Nat) (x : List Char) :
    (List.replicate k '0' ++ x).dropWhile (fun c => c == '0') =
      x.dropWhile (fun c => c == '0') := by
  induction k with
  | zero => rfl
  | succ n ih => simp [List.replicate_succ, ih]

theorem dtz_append_zeros (l : List Char) (k : Nat) :
    dropTrailingZeros (l ++ List.replicate k '0') = dropTrailingZeros l := by
  unfold dropTrailingZeros
  rw [List.reverse_append, List.reverse_replicate, dropWhile_zeros_append]

theorem dtz_decomp (l : List Char) :
    ∃ k, l = dropTrailingZeros l ++ List.replicate k '0' := by
  obtain ⟨k, hdec, _⟩ := dropWhile_zeros_spec l.reverse
  refine ⟨k, ?_⟩
  have := congrArg List.reverse hdec
  rw [List.reverse_reverse, List.reverse_append, List.reverse_replicate] at this
  exact this

theorem dtz_eq_nil (l : List Char) (h : ∀ c ∈ l, c = '0') : dropTrailingZeros l = [] := by
  have hrep : l = List.replicate l.length '0' := List.eq_replicate_of_mem h
  unfold dropTrailingZeros
  rw [hrep, List.reverse_replicate]
  rw [show (List.replicate l.length '0') = List.replicate l.length '0' ++ [] by simp,
    dropWhile_zeros_append]
  rfl

theorem dtz_nil_iff (l : List Char) (h : ∀ c ∈ l, isDig c = true) :
    dropTrailingZeros l = [] ↔ digitsToNat l = 0 := by
  constructor
  · intro h0
    obtain ⟨k, hdec⟩ := dtz_decomp l
    rw [hdec, h0, List.nil_append, digitsToNat_replicate_zero]
  · intro h0
    exact dtz_eq_nil l (digitsToNat_eq_zero l h h0)

/-! ## Splitting on a separator -/

theorem splitFirst_not_mem (sep : Char) (l : List Char) (h : sep ∉ l) :
    splitFirst sep l = (l, none) := by
  induction l with
  | nil => rfl
  | cons c t ih =>
    have hc : c ≠ sep := fun hh => h (by simp [hh])
    have hcs : ¬(c = sep) := hc
    simp only [splitFirst, if_neg hcs, ih (fun hh => h (by simp [hh]))]

theorem takeWhile_ne_sep (sep : Char) (b : List Char) (h : sep ∉ b) :
    b.takeWhile (fun d => d ≠ sep) = b := by
  induction b with
  | nil => rfl
  | cons c t ih =>
    have hc : c ≠ sep := fun hh => h (by simp [hh])
    simp only [List.takeWhile_cons, decide_eq_true_eq]
    rw [if_pos hc, ih (fun hh => h (by simp [hh]))]

theorem splitFirst_append (sep : Char) (a b : List Char) (h : sep ∉ a) :
    splitFirst sep (a ++ sep :: b) = (a, some (b.takeWhile (fun d => d ≠ sep))) := by
  induction a with
  | nil => simp [splitFirst]
  | cons c t ih =>
    have hc : ¬(c = sep) := fun hh => h (by simp [hh])
    simp only [List.cons_append, splitFirst, if_neg hc, List.append_eq,
      ih (fun hh => h (by simp [hh]))]

/-! ## `toStroops` on wellformed unsigned amounts -/

theorem isDig_not_special (c : Char) (h : isDig c = true) :
    c ≠ '-' ∧ c ≠ '.' ∧ c ≠ ',' := by
  refine ⟨?_, ?_, ?_⟩ <;> intro hh <;> rw [hh] at h <;> exact absurd h (by decide)

theorem amountString_nil (intDs : List Char) : amountString intDs [] = intDs := by
  simp [amountString]

theorem amountString_cons (intDs f : List Char) (h : f ≠ []) :
    amountString intDs f = intDs ++ '.' :: f := by
  simp [amountString, h]

theorem matchesNumRegex_unsigned (intDs fracDs : List Char)
    (h1 : intDs ≠ []) (h2 : ∀ c ∈ intDs, isDig c = true)
    (h3 : ∀ c ∈ fracDs, isDig c = true) :
    matchesNumRegex (amountString intDs fracDs) = true := by
  cases intDs with
  | nil => exact absurd rfl h1
  | cons c t =>
    have hc := h2 c (by simp)
    have hcne : c ≠ '-' := (isDig_not_special c hc).1
    have hhead : (amountString (c :: t) fracDs).head? = some c := by
      by_cases hf : fracDs = []
      · subst hf; rw [amountString_nil]; rfl
      · rw [amountString_cons _ _ hf]; rfl
    unfold matchesNumRegex
    rw [hhead, if_neg (by simpa using hcne)]
    have hne : amountString (c :: t) fracDs ≠ [] := by
      by_cases hf : fracDs = []
      · subst hf; rw [amountString_nil]; simp
      · rw [amountString_cons _ _ hf]; simp
    rw [Bool.and_eq_true, List.all_eq_true]
    constructor
    · cases hh : amountString (c :: t) fracDs with
      | nil => exact absurd hh hne
      | cons a b => simp
    · intro x hx
      have hmem : x ∈ (c :: t) ∨ x = '.' ∨ x ∈ fracDs := by
        by_cases hf : fracDs = []
        · subst hf; rw [amountString_nil] at hx; exact Or.inl hx
        · rw [amountString_cons _ _ hf] at hx
          rcases List.mem_append.mp hx with h | h
          · exact Or.inl h
          · rcases List.mem_cons.mp h with h | h
            · exact Or.inr (Or.inl h)
            · exact Or.inr (Or.inr h)
      rcases hmem with h | h | h
      · simp [h2 x h]
      · subst h; simp
      · simp [h3 x h]

theorem jsBigIntNat_digits (l : List Char) (h : ∀ c ∈ l, isDig c = true) :
    jsBigIntNat l = some (digitsToNat l) := by
  unfold jsBigIntNat
  rw [if_pos (List.all_eq_true.mpr (fun x hx => h x hx))]

theorem toStroopsStr_unsigned (intDs fracDs : List Char)
    (h1 : intDs ≠ []) (h2 : ∀ c ∈ intDs, isDig c = true)
    (h3 : ∀ c ∈ fracDs, isDig c = true) (h4 : fracDs.length ≤ 7)
    (h5 : digitsToNat intDs * 10000000 + digitsToNat fracDs * 10 ^ (7 - fracDs.length)
      ≤ 2 ^ 64 - 1) :
    toStroopsStr (amountString intDs fracDs) true =
      .ok ((digitsToNat intDs * 10000000
        + digitsToNat fracDs * 10 ^ (7 - fracDs.length) : Nat) : Int) := by
  have hreg := matchesNumRegex_unsigned intDs fracDs h1 h2 h3
  have hdotInt : '.' ∉ intDs := fun hm => (isDig_not_special '.' (h2 '.' hm)).2.1 rfl
  have hdotFrac : '.' ∉ fracDs := fun hm => (isDig_not_special '.' (h3 '.' hm)).2.1 rfl
  have hheadne : intDs.head? ≠ some '-' := by
    cases intDs with
    | nil => exact absurd rfl h1
    | cons c t =>
      have := (isDig_not_special c (h2 c (by simp))).1
      simpa using this
  have hsplit : splitFirst '.' (amountString intDs fracDs) =
      (intDs, if fracDs.isEmpty then none else some fracDs) := by
    by_cases hf : fracDs = []
    · subst hf
      rw [amountString_nil, splitFirst_not_mem '.' intDs hdotInt]
      rfl
    · rw [amountString_cons _ _ hf, splitFirst_append '.' intDs fracDs hdotInt,
        takeWhile_ne_sep '.' fracDs hdotFrac]
      simp [hf]
  unfold toStroopsStr
  rw [hreg]
  simp only [Bool.not_true, Bool.false_eq_true, if_false, hsplit]
  by_cases hf : fracDs = []
  · subst hf
    have hF : digitsToNat ([] : List Char) * 10 ^ (7 - ([] : List Char).length) = 0 := rfl
    rw [hF] at h5 ⊢
    simp only [List.isEmpty_nil, if_true, Option.getD_none]
    rw [if_neg hheadne]
    rw [jsBigIntNat_digits intDs h2]
    have hpad : (['0'].take 7) ++ List.replicate (7 - (['0'].take 7).length) '0' =
        List.replicate 7 '0' := by decide
    rw [hpad, jsBigIntNat_digits _ (fun c hc => by
      rw [List.eq_of_mem_replicate hc]; decide)]
    rw [digitsToNat_replicate_zero]
    simp only []
    rw [if_neg hheadne]
    rw [if_neg (by omega)]
    congr 1
  · simp only [List.isEmpty_eq_true, hf, if_false, Option.getD_some]
    rw [List.take_of_length_le h4]
    rw [if_neg hheadne]
    rw [jsBigIntNat_digits intDs h2]
    rw [jsBigIntNat_digits _ (fun c hc => by
      rcases List.mem_append.mp hc with h | h
      · exact h3 c h
      · rw [List.eq_of_mem_replicate h]; decide)]
    rw [digitsToNat_append_zeros]
    simp only []
    rw [if_neg hheadne]
    rw [if_neg (by omega)]
    congr 1

/-! ## `fromStroops` rendering -/

theorem fromStroops_split (I F : Nat) (hF : F < 10000000) :
    fromStroops ((I * 10000000 + F : Nat) : Int) =
      .ok (natToChars I ++
        if F = 0 then []
        else '.' :: dropTrailingZeros (padStart7 (natToChars F))) := by
  unfold fromStroops
  rw [if_neg (by omega)]
  have htoNat : ((I * 10000000 + F : Nat) : Int).toNat = I * 10000000 + F := Int.toNat_natCast _
  have hdiv : (I * 10000000 + F) / 10000000 = I := by
    rw [Nat.mul_comm I, Nat.mul_add_div (by omega), Nat.div_eq_of_lt hF]
    omega
  have hmod : (I * 10000000 + F) % 10000000 = F := by
    rw [Nat.mul_add_mod', Nat.mod_eq_of_lt hF]
  simp only [htoNat, hdiv, hmod]
  by_cases h0 : F = 0
  · rw [if_pos h0, h0, if_pos rfl]
    simp
  · rw [if_neg h0, if_neg h0]

theorem padStart7_unique (fracDs : List Char) (h3 : ∀ c ∈ fracDs, isDig c = true)
    (h4 : fracDs.length ≤ 7) :
    padStart7 (natToChars (digitsToNat fracDs * 10 ^ (7 - fracDs.length))) =
      fracDs ++ List.replicate (7 - fracDs.length) '0' := by
  have hvlt : digitsToNat fracDs * 10 ^ (7 - fracDs.length) < 10 ^ 7 := by
    have h1 := digitsToNat_lt fracDs h3
    calc digitsToNat fracDs * 10 ^ (7 - fracDs.length)
        < 10 ^ fracDs.length * 10 ^ (7 - fracDs.length) :=
          (Nat.mul_lt_mul_right (pow_pos (by omega) _)).mpr h1
    _ = 10 ^ 7 := by rw [← pow_add]; congr 1; omega
  have hlen : (natToChars (digitsToNat fracDs * 10 ^ (7 - fracDs.length))).length ≤ 7 :=
    natToChars_len _ 7 (by omega) hvlt
  apply digits_unique
  · simp only [padStart7, List.length_append, List.length_replicate]
    omega
  · intro c hc
    rcases List.mem_append.mp hc with h | h
    · rw [List.eq_of_mem_replicate h]; decide
    · exact natToChars_isDig _ c h
  · intro c hc
    rcases List.mem_append.mp hc with h | h
    · exact h3 c h
    · rw [List.eq_of_mem_replicate h]; decide
  · rw [show padStart7 (natToChars (digitsToNat fracDs * 10 ^ (7 - fracDs.length))) =
      List.replicate (7 - (natToChars (digitsToNat fracDs * 10 ^ (7 - fracDs.length))).length) '0'
        ++ natToChars (digitsToNat fracDs * 10 ^ (7 - fracDs.length)) from rfl]
    rw [digitsToNat_zeros_append, natToChars_val, digitsToNat_append_zeros]

theorem except_bind_ok (x : Int) (f : Int → Except JsErr (List Char)) :
    (Except.ok x : Except JsErr Int).bind f = f x := rfl

theorem fracVal_lt (fracDs : List Char) (h3 : ∀ c ∈ fracDs, isDig c = true)
    (h4 : fracDs.length ≤ 7) :
    digitsToNat fracDs * 10 ^ (7 - fracDs.length) < 10 ^ 7 := by
  have h1 := digitsToNat_lt fracDs h3
  calc digitsToNat fracDs * 10 ^ (7 - fracDs.length)
      < 10 ^ fracDs.length * 10 ^ (7 - fracDs.length) :=
        (Nat.mul_lt_mul_right (pow_pos (by omega) _)).mpr h1
  _ = 10 ^ 7 := by rw [← pow_add]; congr 1; omega

theorem decode_encode_aux (intDs fracDs : List Char)
    (h1 : intDs ≠ []) (h2 : ∀ c ∈ intDs, isDig c = true)
    (h3 : ∀ c ∈ fracDs, isDig c = true) (h4 : fracDs.length ≤ 7)
    (h5 : digitsToNat intDs * 10000000 + digitsToNat fracDs * 10 ^ (7 - fracDs.length)
      ≤ 2 ^ 64 - 1) :
    (toStroopsStr (amountString intDs fracDs) true).bind fromStroops =
      .ok (canonicalAmount intDs fracDs) := by
  rw [toStroopsStr_unsigned _ _ h1 h2 h3 h4 h5, except_bind_ok,
    fromStroops_split _ _ (by
      have := fracVal_lt fracDs h3 h4
      simpa using this)]
  rw [canonInt_spec intDs h2]
  unfold canonicalAmount
  congr 1
  by_cases hF : digitsToNat fracDs * 10 ^ (7 - fracDs.length) = 0
  · rw [if_pos hF]
    have hz : digitsToNat fracDs = 0 := by
      rcases Nat.mul_eq_zero.mp hF with h | h
      · exact h
      · exact absurd h (Nat.pos_iff_ne_zero.mp (pow_pos (by omega) _))
    have := (dtz_nil_iff fracDs h3).mpr hz
    rw [this]
    simp
  · rw [if_neg hF]
    have hz : digitsToNat fracDs ≠ 0 := by
      intro hc
      exact hF (by rw [hc]; ring)
    have hdtz : dropTrailingZeros fracDs ≠ [] := by
      intro hc
      exact hz ((dtz_nil_iff fracDs h3).mp hc)
    rw [padStart7_unique fracDs h3 h4, dtz_append_zeros]
    simp [hdtz]

/-! ## Characterisation of the strict and non-strict error behaviour -/

theorem all_append_zeros (l : List Char) (k : Nat) :
    (l ++ List.replicate k '0').all isDig = l.all isDig := by
  rw [List.all_append]
  have h : (List.replicate k '0').all isDig = true := by
    rw [List.all_eq_true]
    intro x hx
    rw [List.eq_of_mem_replicate hx]
    decide
  rw [h, Bool.and_true]

theorem toStroops_strict_spec (s : List Char) :
    (toStroopsStr s true = .error .invalidFormat ↔ acceptedFormat s = false) ∧
    (toStroopsStr s true = .error .uint64Overflow ↔
      acceptedFormat s = true ∧ encodedValue s > 2 ^ 64 - 1) ∧
    (toStroopsStr s true = .error .int64Overflow ↔
      acceptedFormat s = true ∧ encodedValue s < -(2 ^ 63 : Int)) ∧
    (∀ e, toStroopsStr s true = .error e → toStroopsStr s false = .ok 0) := by
  unfold toStroopsStr acceptedFormat encodedValue
  by_cases hreg : matchesNumRegex s
  case neg =>
    simp [hreg]
  case pos =>
    simp only [hreg, Bool.not_true, Bool.false_eq_true, if_false, Bool.true_and]
    by_cases hneg : (splitFirst '.' s).1.head? = some '-'
    all_goals
      simp only [hneg, if_true, if_false]
      rw [show (7 - (((splitFirst '.' s).2.getD ['0']).take 7).length) =
        7 - (((splitFirst '.' s).2.getD ['0']).take 7).length from rfl]
    case pos =>
      by_cases hint : ((splitFirst '.' s).1.tail).all isDig
      · by_cases hd7 : (((splitFirst '.' s).2.getD ['0']).take 7
            ++ List.replicate (7 - (((splitFirst '.' s).2.getD ['0']).take 7).length) '0').all isDig
        · unfold jsBigIntNat
          rw [if_pos hint, if_pos hd7]
          rw [all_append_zeros] at hd7
          simp only [hint, hd7, Bool.and_self]
          have hmag0 : (0:Int) ≤ (digitsToNat ((splitFirst '.' s).1.tail) : Int) * 10000000 +
            (digitsToNat (((splitFirst '.' s).2.getD ['0']).take 7
              ++ List.replicate (7 - (((splitFirst '.' s).2.getD ['0']).take 7).length) '0') : Int) := by
            positivity
          split_ifs with h <;> simp_all <;> omega
        · unfold jsBigIntNat
          rw [if_pos hint, if_neg hd7]
          rw [all_append_zeros] at hd7
          simp [hint, hd7]
      · unfold jsBigIntNat
        rw [if_neg hint]
        simp [hint]
    case neg =>
      by_cases hint : ((splitFirst '.' s).1).all isDig
      · by_cases hd7 : (((splitFirst '.' s).2.getD ['0']).take 7
            ++ List.replicate (7 - (((splitFirst '.' s).2.getD ['0']).take 7).length) '0').all isDig
        · unfold jsBigIntNat
          rw [if_pos hint, if_pos hd7]
          rw [all_append_zeros] at hd7
          simp only [hint, hd7, Bool.and_self]
          have hmag0 : (0:Int) ≤ (digitsToNat ((splitFirst '.' s).1) : Int) * 10000000 +
            (digitsToNat (((splitFirst '.' s).2.getD ['0']).take 7
              ++ List.replicate (7 - (((splitFirst '.' s).2.getD ['0']).take 7).length) '0') : Int) := by
            positivity
          split_ifs with h <;> simp_all <;> omega
        · unfold jsBigIntNat
          rw [if_pos hint, if_neg hd7]
          rw [all_append_zeros] at hd7
          simp [hint, hd7]
      · unfold jsBigIntNat
        rw [if_neg hint]
        simp [hint]

/-! ## Reduction helpers for `Except` binds -/

@[simp] theorem ebind_error {α β : Type} (e : JsErr) (f : α → Except JsErr β) :
    (Except.error e : Except JsErr α) >>= f = .error e := rfl

@[simp] theorem ebind_ok {α β : Type} (a : α) (f : α → Except JsErr β) :
    (Except.ok a : Except JsErr α) >>= f = f a := rfl

/-! ## The claims -/

/-- C1: the spec says `dispose()` on an escrow holding AQUA=1000 with the
owner in its signer set emits payment(escrow→owner, AQUA, 1000),
trustline-limit-zero(AQUA) and merge(escrow→owner) and removes the registry
entry.  The code instead passes the balance-line OBJECT to
`convertToStellarAsset`, whose `asset.includes('-')` call throws a
`TypeError`, so `dispose` fails on every escrow with a non-native balance,
submits nothing, and leaves the registry entry in place — contradicting the
spec and the repository's own tests. -/
theorem c1_dispose_crashes_on_nonnative_balance :
    dispose (fun _ => false)
      ⟨"GOWNER".toList, .native, .issued "AQUA".toList "GISS".toList, 100000000, 50000000,
        some "GMED".toList, "msb_".toList⟩
      "GMED".toList
      (some ⟨"GMED".toList,
        [⟨"native".toList, none, none, "1".toList⟩,
         ⟨"credit_alphanum4".toList, some "AQUA".toList, some "GISS".toList, "1000".toList⟩],
        [⟨"GOWNER".toList, 1, "ed25519_public_key".toList⟩], ⟨0, 0, 0⟩⟩)
      none true [("msb_GMED".toList, "GOWNER".toList)] =
      (.error .typeError, [("msb_GMED".toList, "GOWNER".toList)], false) := by
  decide

/-- C2: the spec says the constructor raises `InvalidParameter` for every
malformed selling-amount string.  The code calls `toStroops(sellingAmount)`
WITHOUT the strict flag, so the malformed amount `'abc'` silently encodes
to `0` and construction succeeds (the `catch` that would raise
`'Invalid selling amount'` is dead code) — while invalid owner addresses
and unparsable assets do raise, as the spec says. -/
theorem c2_constructor_accepts_malformed_amount :
    mediatorNew (fun k => k == "GOWNER".toList) "GOWNER".toList
        (.strA "XLM".toList) (.strA "XLM".toList) (.str "abc".toList) 50000000 =
      .ok ⟨"GOWNER".toList, .native, .native, 0, 50000000, none, "msb_".toList⟩ ∧
    mediatorNew (fun k => k == "GOWNER".toList) "GBAD".toList
        (.strA "XLM".toList) (.strA "XLM".toList) (.str "1".toList) 50000000 =
      .error .invalidSource ∧
    mediatorNew (fun k => k == "GOWNER".toList) "GOWNER".toList
        (.strA "???".toList) (.strA "XLM".toList) (.str "1".toList) 50000000 =
      .error .invalidSellingAsset := by
  decide

/-- C3 counterexample: the claim covers every valid string matching
`-?digits(.digits)?`, but `decode(encode("-1"))` throws
`TypeError('Invalid amount')` in `fromStroops` instead of returning
`"-1"`. -/
theorem c3_counterexample_negative :
    (toStroopsStr "-1".toList true).bind fromStroops = .error .invalidAmount ∧
    (toStroopsStr "-1".toList true).bind fromStroops ≠ .ok "-1".toList := by
  decide

/-- C3 (amended to non-negative inputs, with the integer part rendered
canonically): for every unsigned decimal string (nonempty all-digit integer
part, at most 7 fractional digits, encoded value within `2^64 - 1`),
`fromStroops (toStroops s true)` returns the canonical form of `s`:
integer part with leading zeros stripped, trailing fractional zeros
stripped, and a zero fraction omitted together with its dot. -/
theorem c3_decode_encode_canonical (intDs fracDs : List Char)
    (h1 : intDs ≠ []) (h2 : ∀ c ∈ intDs, isDig c = true)
    (h3 : ∀ c ∈ fracDs, isDig c = true) (h4 : fracDs.length ≤ 7)
    (h5 : digitsToNat intDs * 10000000 + digitsToNat fracDs * 10 ^ (7 - fracDs.length)
      ≤ 2 ^ 64 - 1) :
    (toStroopsStr (amountString intDs fracDs) true).bind fromStroops =
      .ok (canonicalAmount intDs fracDs) :=
  decode_encode_aux intDs fracDs h1 h2 h3 h4 h5

/-- Witness for C3 at `s = "010.50"`: the roundtrip yields `"10.5"`. -/
theorem c3_decode_encode_canonical_witness :
    (toStroopsStr (amountString "010".toList "50".toList) true).bind fromStroops =
      .ok (canonicalAmount "010".toList "50".toList) ∧
    amountString "010".toList "50".toList = "010.50".toList ∧
    canonicalAmount "010".toList "50".toList = "10.5".toList :=
  ⟨c3_decode_encode_canonical "010".toList "50".toList (by decide) (by decide) (by decide)
    (by decide) (by decide), by decide, by decide⟩

/-- C4 counterexample: `"1.2.3"` violates the claimed grammar
`-?digits(.digits)?` yet strict `toStroops` raises nothing and encodes it
as `1.2` (the third dot-segment is silently dropped). -/
theorem c4_counterexample_dotted :
    specGrammar "1.2.3".toList = false ∧
    toStroopsStr "1.2.3".toList true = .ok 12000000 := by
  decide

/-- C4 (amended: the implementation's accepted format replaces the spec
grammar): strict `toStroops` raises the invalid-format error exactly when
the string fails the accepted format, raises the unsigned-overflow error
exactly when the format is accepted and the encoded value exceeds
`2^64 - 1`, raises the signed-overflow error exactly when the format is
accepted and the encoded value is below `-2^63`, and whenever strict mode
raises, non-strict mode returns `0` instead. -/
theorem c4_strict_error_characterisation (s : List Char) :
    (toStroopsStr s true = .error .invalidFormat ↔ acceptedFormat s = false) ∧
    (toStroopsStr s true = .error .uint64Overflow ↔
      acceptedFormat s = true ∧ encodedValue s > 2 ^ 64 - 1) ∧
    (toStroopsStr s true = .error .int64Overflow ↔
      acceptedFormat s = true ∧ encodedValue s < -(2 ^ 63 : Int)) ∧
    (∀ e, toStroopsStr s true = .error e → toStroopsStr s false = .ok 0) :=
  toStroops_strict_spec s

/-- Witness for C4 at `"1,2"` (rejected format: comma in the integer
segment) and at `"18446744073709.5516151"` (encodes above `2^64 - 1`). -/
theorem c4_strict_error_characterisation_witness :
    toStroopsStr "1,2".toList true = .error .invalidFormat ∧
    toStroopsStr "1,2".toList false = .ok 0 ∧
    toStroopsStr "18446744073709.5516151".toList true = .error .uint64Overflow := by
  have h1 := (c4_strict_error_characterisation "1,2".toList).1.mpr (by decide)
  have h2 := (c4_strict_error_characterisation "1,2".toList).2.2.2 _ h1
  have h3 := ((c4_strict_error_characterisation "18446744073709.5516151".toList).2.1).mpr
    (by decide)
  exact ⟨h1, h2, h3⟩

theorem toStroops_nonstrict_spec (s : List Char) :
    toStroopsStr s false = .ok 0 ∨
      (acceptedFormat s = true ∧ toStroopsStr s false = .ok (encodedValue s) ∧
        -(2 ^ 63 : Int) ≤ encodedValue s ∧ encodedValue s ≤ 2 ^ 64 - 1) := by
  unfold toStroopsStr acceptedFormat encodedValue
  by_cases hreg : matchesNumRegex s
  case neg =>
    simp [hreg]
  case pos =>
    simp only [hreg, Bool.not_true, Bool.false_eq_true, if_false, Bool.true_and]
    by_cases hneg : (splitFirst '.' s).1.head? = some '-'
    case pos =>
      simp only [hneg, if_true]
      by_cases hint : ((splitFirst '.' s).1.tail).all isDig
      · by_cases hd7 : (((splitFirst '.' s).2.getD ['0']).take 7).all isDig
        · unfold jsBigIntNat
          rw [if_pos hint, if_pos (by rw [all_append_zeros]; exact hd7)]
          simp only [hint, hd7, Bool.and_self]
          split_ifs with h
          · left; rfl
          · right
            have hmag0 : (0:Int) ≤ (digitsToNat ((splitFirst '.' s).1.tail) : Int) * 10000000 +
              (digitsToNat (((splitFirst '.' s).2.getD ['0']).take 7
                ++ List.replicate
                  (7 - (((splitFirst '.' s).2.getD ['0']).take 7).length) '0') : Int) := by
              positivity
            refine ⟨by trivial, ?_, by omega, by omega⟩
            rfl
        · unfold jsBigIntNat
          rw [if_pos hint, if_neg (by rw [all_append_zeros]; exact hd7)]
          left; rfl
      · unfold jsBigIntNat
        rw [if_neg hint]
        left; rfl
    case neg =>
      simp only [hneg, if_false]
      by_cases hint : ((splitFirst '.' s).1).all isDig
      · by_cases hd7 : (((splitFirst '.' s).2.getD ['0']).take 7).all isDig
        · unfold jsBigIntNat
          rw [if_pos hint, if_pos (by rw [all_append_zeros]; exact hd7)]
          simp only [hint, hd7, Bool.and_self]
          split_ifs with h
          · left; rfl
          · right
            have hmag0 : (0:Int) ≤ (digitsToNat ((splitFirst '.' s).1) : Int) * 10000000 +
              (digitsToNat (((splitFirst '.' s).2.getD ['0']).take 7
                ++ List.replicate
                  (7 - (((splitFirst '.' s).2.getD ['0']).take 7).length) '0') : Int) := by
              positivity
            refine ⟨by trivial, ?_, by omega, by omega⟩
            rfl
        · unfold jsBigIntNat
          rw [if_pos hint, if_neg (by rw [all_append_zeros]; exact hd7)]
          left; rfl
      · unfold jsBigIntNat
        rw [if_neg hint]
        left; rfl

/-- C9: non-strict `toStroops` — the mode the `Mediator` constructor uses —
is total on every JavaScript value: it always returns a `BigInt`, and it
returns `0n` for every string the format validation rejects and for every
string whose encoded magnitude falls outside the 64-bit bounds. -/
theorem c9_nonstrict_total (value : JsValue) :
    ∃ n : Int, toStroops value false = .ok n ∧
      (∀ s, value = .str s → acceptedFormat s = false → n = 0) ∧
      (∀ s, value = .str s →
        (encodedValue s > 2 ^ 64 - 1 ∨ encodedValue s < -(2 ^ 63 : Int)) → n = 0) := by
  cases value with
  | str s =>
    rcases toStroops_nonstrict_spec s with h | ⟨hacc, hok, hlo, hhi⟩
    · exact ⟨0, h, fun _ _ _ => rfl, fun _ _ _ => rfl⟩
    · refine ⟨encodedValue s, hok, ?_, ?_⟩
      · intro s' hs' hbad
        cases hs'
        rw [hacc] at hbad
        cases hbad
      · intro s' hs' hover
        cases hs'
        omega
  | numZero =>
    refine ⟨0, rfl, ?_, ?_⟩ <;> intro s h <;> cases h
  | num s =>
    rcases toStroops_nonstrict_spec s with h | ⟨hacc, hok, hlo, hhi⟩
    · exact ⟨0, h, (by intro s' h'; cases h'), (by intro s' h'; cases h')⟩
    · exact ⟨encodedValue s, hok, (by intro s' h'; cases h'), (by intro s' h'; cases h')⟩
  | other =>
    refine ⟨0, rfl, ?_, ?_⟩ <;> intro s h <;> cases h

/-- Witness for C9 at the malformed string `'abc'`, the overflowing string
`'18446744073709.5516151'`, and the non-string value. -/
theorem c9_nonstrict_total_witness :
    toStroops (.str "abc".toList) false = .ok 0 ∧
    toStroops (.str "18446744073709.5516151".toList) false = .ok 0 ∧
    toStroops .other false = .ok 0 := by
  obtain ⟨n1, hok1, hbad1, _⟩ := c9_nonstrict_total (.str "abc".toList)
  obtain ⟨n2, hok2, _, hover2⟩ := c9_nonstrict_total (.str "18446744073709.5516151".toList)
  obtain ⟨n3, hok3, _, _⟩ := c9_nonstrict_total .other
  refine ⟨?_, ?_, ?_⟩
  · rw [hok1, hbad1 _ rfl (by decide)]
  · rw [hok2, hover2 _ rfl (by decide)]
  · decide

theorem find_none_of_all (sgs : List AccountSigner) (src : List Char)
    (h : ∀ sg ∈ sgs, sg.key ≠ src) :
    (sgs.find? (fun s => s.key == src)).isNone = true := by
  rw [Option.isNone_iff_eq_none, List.find?_eq_none]
  intro x hx
  simpa using h x hx

theorem disposeOps_error_typeError (keyOk : List Char → Bool) (address source : List Char)
    (bals : List BalanceLine) (e : JsErr)
    (h : disposeOps keyOk address source bals = .error e) : e = .typeError := by
  induction bals with
  | nil => simp [disposeOps] at h
  | cons b rest ih =>
    simp only [disposeOps] at h
    by_cases hb : (b.asset_type == "native".toList) = true
    · rw [if_pos hb] at h
      exact ih h
    · rw [if_neg hb] at h
      rw [show convertToStellarAsset keyOk (.balA b) = .error .typeError from rfl] at h
      simp only [] at h
      cases h
      rfl

/-- C8: `dispose(address)` removes the registry entry exactly when the
submission succeeds or the escrow account is not found (the latter also
raising the not-found error); when the owner is absent from the escrow's
signer set it raises `NotMediatorFor` without submitting and leaves the
registry intact; and on submission failure the registry is also left
intact. -/
theorem c8_dispose_registry_effects (keyOk : List Char → Bool) (m : MediatorCfg)
    (address : List Char) (mediatorAccount sourceAccount : Option AccountResponse)
    (submitOk : Bool) (reg : Registry)
    (res : Except JsErr (List Operation)) (reg' : Registry) (submitted : Bool)
    (h : dispose keyOk m address mediatorAccount sourceAccount submitOk reg =
      (res, reg', submitted)) :
    (reg' = if removesEntry res = true
      then lsRemove reg (m.storagePref ++ address) else reg) ∧
    (mediatorAccount = none → res = .error .escrowNotFound) ∧
    (∀ acc, mediatorAccount = some acc → (∀ sg ∈ acc.signers, sg.key ≠ m.source) →
      res = .error .notMediatorFor ∧ submitted = false ∧ reg' = reg) ∧
    (∀ ops, res = .ok ops → submitOk = true ∧ submitted = true) ∧
    (submitted = true → submitOk = false → res = .error .submitFailed ∧ reg' = reg) := by
  cases mediatorAccount with
  | none =>
    simp only [dispose, Prod.mk.injEq] at h
    obtain ⟨h1, h2, h3⟩ := h
    subst h1; subst h2; subst h3
    refine ⟨by simp [removesEntry], fun _ => rfl, ?_, ?_, ?_⟩
    · intro acc hacc; cases hacc
    · intro ops hops; cases hops
    · intro hs; cases hs
  | some acc =>
    simp only [dispose] at h
    by_cases hfind : (acc.signers.find? (fun s => s.key == m.source)).isNone = true
    · rw [if_pos hfind] at h
      simp only [Prod.mk.injEq] at h
      obtain ⟨h1, h2, h3⟩ := h
      subst h1; subst h2; subst h3
      refine ⟨by simp [removesEntry], ?_, ?_, ?_, ?_⟩
      · intro hn; cases hn
      · intro acc' hacc' _
        exact ⟨rfl, rfl, rfl⟩
      · intro ops hops; cases hops
      · intro hs; cases hs
    · rw [if_neg hfind] at h
      cases hops : disposeOps keyOk address m.source acc.balances with
      | error e =>
        rw [hops] at h
        simp only [Prod.mk.injEq] at h
        obtain ⟨h1, h2, h3⟩ := h
        subst h1; subst h2; subst h3
        have he : e = .typeError := disposeOps_error_typeError _ _ _ _ _ hops
        subst he
        refine ⟨?_, ?_, ?_, ?_, ?_⟩
        · simp [removesEntry]
        · intro hn; cases hn
        · intro acc' hacc' hall
          cases hacc'
          exact absurd (find_none_of_all acc.signers m.source hall) hfind
        · intro ops h'; cases h'
        · intro hs; cases hs
      | ok ops0 =>
        simp only [hops] at h
        by_cases hreload : m.mediatorAddress ≠ some address ∧ sourceAccount = none
        · rw [if_pos hreload] at h
          simp only [Prod.mk.injEq] at h
          obtain ⟨h1, h2, h3⟩ := h
          subst h1; subst h2; subst h3
          refine ⟨by simp [removesEntry], ?_, ?_, ?_, ?_⟩
          · intro hn; cases hn
          · intro acc' hacc' hall
            cases hacc'
            exact absurd (find_none_of_all acc.signers m.source hall) hfind
          · intro ops h'; cases h'
          · intro hs; cases hs
        · rw [if_neg hreload] at h
          cases hsub : submitOk with
          | true =>
            rw [hsub, if_pos rfl] at h
            simp only [Prod.mk.injEq] at h
            obtain ⟨h1, h2, h3⟩ := h
            subst h1; subst h2; subst h3
            refine ⟨by simp [removesEntry], ?_, ?_, ?_, ?_⟩
            · intro hn; cases hn
            · intro acc' hacc' hall
              cases hacc'
              exact absurd (find_none_of_all acc.signers m.source hall) hfind
            · intro ops h'
              exact ⟨rfl, rfl⟩
            · intro _ hcontra; cases hcontra
          | false =>
            rw [hsub] at h
            simp only [Bool.false_eq_true, if_false, Prod.mk.injEq] at h
            obtain ⟨h1, h2, h3⟩ := h
            subst h1; subst h2; subst h3
            refine ⟨by simp [removesEntry], ?_, ?_, ?_, ?_⟩
            · intro hn; cases hn
            · intro acc' hacc' hall
              cases hacc'
              exact absurd (find_none_of_all acc.signers m.source hall) hfind
            · intro ops h'; cases h'
            · intro _ _
              exact ⟨rfl, rfl⟩

/-- Witness for C8: disposing a nonexistent escrow raises the not-found
error and clears the stale registry entry. -/
theorem c8_dispose_registry_effects_witness :
    (dispose (fun _ => false)
        ⟨"GOWNER".toList, .native, .native, 0, 50000000, none, "msb_".toList⟩
        "GMED".toList none none true [("msb_GMED".toList, "GOWNER".toList)]).1 =
      .error .escrowNotFound ∧
    (dispose (fun _ => false)
        ⟨"GOWNER".toList, .native, .native, 0, 50000000, none, "msb_".toList⟩
        "GMED".toList none none true [("msb_GMED".toList, "GOWNER".toList)]).2.1 = [] := by
  obtain ⟨hreg, hnone, -, -, -⟩ := c8_dispose_registry_effects (fun _ => false)
    ⟨"GOWNER".toList, .native, .native, 0, 50000000, none, "msb_".toList⟩
    "GMED".toList none none true [("msb_GMED".toList, "GOWNER".toList)] _ _ _ rfl
  exact ⟨hnone rfl, by decide⟩

/-- C6: with a native selling asset, an issued buying asset the owner
already trusts, a single-signer owner, and nonnegative amount and reserve
(`reserve = reserveBase + 0.5 * 3` here, i.e. `rfee + 15000000` stroops),
`init()` raises the insufficient-balance error exactly when the owner's
native balance is below `sellingAmount + reserve`, and otherwise emits
exactly the create-account operation funding the escrow with
`sellingAmount + reserve`, the unlimited-limit trustline for the buying
asset, and the signer-set operation. -/
theorem c6_native_selling_balance_check
    (src med buyC buyI : List Char) (sa rfee : Int)
    (acc : AccountResponse) (nb bl : BalanceLine) (reg : Registry)
    (hsig : acc.signers.length = 1)
    (hnat : findTrustline acc .native = some nb)
    (hbuy : findTrustline acc (.issued buyC buyI) = some bl)
    (hsa : 0 ≤ sa) (hrfee : 0 ≤ rfee) :
    init ⟨src, .native, .issued buyC buyI, sa, rfee, none, "msb_".toList⟩ (some acc) med true
        reg =
      if toStroopsD nb.balance < sa + (rfee + 15000000) then
        (.error .insufficientXLM, reg)
      else
        (.ok [Operation.createAccount src med (sa + (rfee + 15000000)),
              Operation.changeTrust med (.issued buyC buyI) none,
              Operation.setOptions med none (some homeDomainChars) (some 1) (some 1) (some 1)
                (some 1) (some (src, 1))],
         lsSet reg ("msb_".toList ++ med) src) := by
  have hsub : initSubentries
      ⟨src, .native, .issued buyC buyI, sa, rfee, none, "msb_".toList⟩ acc = 3 := by
    simp [initSubentries, hsig, StellarAsset.isNative]
  have hio : initOps ⟨src, .native, .issued buyC buyI, sa, rfee, none, "msb_".toList⟩ acc med =
      if toStroopsD nb.balance < sa + (rfee + 15000000) then .error .insufficientXLM
      else .ok [Operation.createAccount src med (sa + (rfee + 15000000)),
        Operation.changeTrust med (.issued buyC buyI) none,
        Operation.setOptions med none (some homeDomainChars) (some 1) (some 1) (some 1)
          (some 1) (some (src, 1))] := by
    obtain ⟨str, hstr⟩ : ∃ x, fromStroops (sa + (rfee + 15000000)) = .ok x := by
      simp only [fromStroops]
      rw [if_neg (by omega)]
      by_cases h0 : (sa + (rfee + 15000000)).toNat % 10000000 = 0
      · rw [if_pos h0]; exact ⟨_, rfl⟩
      · rw [if_neg h0]; exact ⟨_, rfl⟩
    unfold initOps
    rw [hsub]
    simp only [StellarAsset.isNative, hnat, hbuy, hsig]
    norm_num
    by_cases hcond : toStroopsD nb.balance < sa + (rfee + 15000000)
    · simp [hcond, hstr]
    · simp [hcond, hstr]
  by_cases hcond : toStroopsD nb.balance < sa + (rfee + 15000000)
  · simp only [init, hio, if_pos hcond]
  · simp only [init, hio, if_neg hcond]
    simp

/-- Witness for C6: the spec scenario — sell 10 XLM for AQUA, reserveBase 5,
single-signer owner.  Balances 5 and 11 raise the insufficient-balance
error; balance 100 succeeds, funding the escrow with 16.5 XLM. -/
theorem c6_native_selling_balance_check_witness :
    init ⟨"GOWNER".toList, .native, .issued "AQUA".toList "GISS".toList, 100000000, 50000000,
        none, "msb_".toList⟩
      (some ⟨"GOWNER".toList,
        [⟨"native".toList, none, none, "5".toList⟩,
         ⟨"credit_alphanum4".toList, some "AQUA".toList, some "GISS".toList, "0".toList⟩],
        [⟨"GOWNER".toList, 1, "ed25519_public_key".toList⟩], ⟨0, 0, 0⟩⟩)
      "GMED".toList true [] = (.error .insufficientXLM, []) ∧
    init ⟨"GOWNER".toList, .native, .issued "AQUA".toList "GISS".toList, 100000000, 50000000,
        none, "msb_".toList⟩
      (some ⟨"GOWNER".toList,
        [⟨"native".toList, none, none, "11".toList⟩,
         ⟨"credit_alphanum4".toList, some "AQUA".toList, some "GISS".toList, "0".toList⟩],
        [⟨"GOWNER".toList, 1, "ed25519_public_key".toList⟩], ⟨0, 0, 0⟩⟩)
      "GMED".toList true [] = (.error .insufficientXLM, []) ∧
    init ⟨"GOWNER".toList, .native, .issued "AQUA".toList "GISS".toList, 100000000, 50000000,
        none, "msb_".toList⟩
      (some ⟨"GOWNER".toList,
        [⟨"native".toList, none, none, "100".toList⟩,
         ⟨"credit_alphanum4".toList, some "AQUA".toList, some "GISS".toList, "0".toList⟩],
        [⟨"GOWNER".toList, 1, "ed25519_public_key".toList⟩], ⟨0, 0, 0⟩⟩)
      "GMED".toList true [] =
      (.ok [Operation.createAccount "GOWNER".toList "GMED".toList 165000000,
            Operation.changeTrust "GMED".toList (.issued "AQUA".toList "GISS".toList) none,
            Operation.setOptions "GMED".toList none (some homeDomainChars) (some 1) (some 1)
              (some 1) (some 1) (some ("GOWNER".toList, 1))],
       [("msb_".toList ++ "GMED".toList, "GOWNER".toList)]) := by
  refine ⟨?_, ?_, ?_⟩
  · exact (c6_native_selling_balance_check "GOWNER".toList "GMED".toList "AQUA".toList
      "GISS".toList 100000000 50000000 _ ⟨"native".toList, none, none, "5".toList⟩
      ⟨"credit_alphanum4".toList, some "AQUA".toList, some "GISS".toList, "0".toList⟩ []
      (by decide) (by decide) (by decide) (by decide) (by decide)).trans (by decide)
  · exact (c6_native_selling_balance_check "GOWNER".toList "GMED".toList "AQUA".toList
      "GISS".toList 100000000 50000000 _ ⟨"native".toList, none, none, "11".toList⟩
      ⟨"credit_alphanum4".toList, some "AQUA".toList, some "GISS".toList, "0".toList⟩ []
      (by decide) (by decide) (by decide) (by decide) (by decide)).trans (by decide)
  · exact (c6_native_selling_balance_check "GOWNER".toList "GMED".toList "AQUA".toList
      "GISS".toList 100000000 50000000 _ ⟨"native".toList, none, none, "100".toList⟩
      ⟨"credit_alphanum4".toList, some "AQUA".toList, some "GISS".toList, "0".toList⟩ []
      (by decide) (by decide) (by decide) (by decide) (by decide)).trans (by decide)

theorem initOps_ok_head (m : MediatorCfg) (acc : AccountResponse) (ma : List Char)
    (ops : List Operation) (h : initOps m acc ma = .ok ops) :
    ops.head? = some (.createAccount m.source ma
      ((if m.sellingAsset.isNative = true then m.sellingAmount else 0) +
        (m.reserveFeeStroops + 5000000 * (initSubentries m acc : Int)))) := by
  simp only [initOps] at h
  by_cases hnat : m.sellingAsset.isNative = true
  · rw [if_pos hnat] at h
    cases hft : findTrustline acc StellarAsset.native with
    | none =>
      simp only [hft, ebind_error] at h
      exact Except.noConfusion h
    | some tl =>
      simp only [hft] at h
      by_cases hbal : toStroopsD tl.balance <
          m.sellingAmount + (m.reserveFeeStroops + 5000000 * (initSubentries m acc : Int))
      · rw [if_pos hbal] at h
        simp only [ebind_error] at h
        exact Except.noConfusion h
      · rw [if_neg hbal] at h
        cases hfs : fromStroops
            (m.sellingAmount + (m.reserveFeeStroops + 5000000 * (initSubentries m acc : Int))) with
        | error e =>
          simp only [hfs, ebind_error] at h
          exact Except.noConfusion h
        | ok str =>
          simp only [hfs, ebind_ok] at h
          rw [if_pos hnat]
          by_cases hlen : acc.signers.length > 1
          · rw [if_pos hlen] at h
            cases hfil : acc.signers.filter (fun s => s.type == "ed25519_public_key".toList) with
            | nil =>
              simp only [hfil, ebind_error] at h
              exact Except.noConfusion h
            | cons s0 rest =>
              simp only [hfil, ebind_ok, Except.ok.injEq] at h
              subst h
              simp
          · rw [if_neg hlen] at h
            simp only [ebind_ok, Except.ok.injEq] at h
            subst h
            simp
  · rw [if_neg hnat] at h
    cases hft : findTrustline acc StellarAsset.native with
    | none =>
      simp only [hft, ebind_error] at h
      exact Except.noConfusion h
    | some xtl =>
      simp only [hft] at h
      by_cases hshort : (match parseFloatStroops xtl.balance with
          | some v => decide (v < m.reserveFeeStroops + 5000000 * (initSubentries m acc : Int))
          | none => false) = true
      · rw [if_pos hshort] at h
        simp only [ebind_error] at h
        exact Except.noConfusion h
      · rw [if_neg hshort] at h
        cases hst : findTrustline acc m.sellingAsset with
        | none =>
          simp only [hst, ebind_error] at h
          exact Except.noConfusion h
        | some stl =>
          simp only [hst] at h
          by_cases hsb : toStroopsD stl.balance < m.sellingAmount
          · rw [if_pos hsb] at h
            simp only [ebind_error] at h
            exact Except.noConfusion h
          · rw [if_neg hsb] at h
            cases hfs : fromStroops m.sellingAmount with
            | error e =>
              simp only [hfs, ebind_error] at h
              exact Except.noConfusion h
            | ok str =>
              simp only [hfs, ebind_ok] at h
              rw [if_neg hnat]
              by_cases hlen : acc.signers.length > 1
              · rw [if_pos hlen] at h
                cases hfil : acc.signers.filter
                    (fun s => s.type == "ed25519_public_key".toList) with
                | nil =>
                  simp only [hfil, ebind_error] at h
                  exact Except.noConfusion h
                | cons s0 rest =>
                  simp only [hfil, ebind_ok, Except.ok.injEq] at h
                  subst h
                  simp
              · rw [if_neg hlen] at h
                simp only [ebind_ok, Except.ok.injEq] at h
                subst h
                simp

theorem init_ok_inv (m : MediatorCfg) (acc : AccountResponse) (ma : List Char)
    (submitOk : Bool) (reg : Registry) (ops : List Operation) (reg' : Registry)
    (h : init m (some acc) ma submitOk reg = (.ok ops, reg')) :
    initOps m acc ma = .ok ops ∧ submitOk = true := by
  simp only [init] at h
  cases hi : initOps m acc ma with
  | error e =>
    simp only [hi, Prod.mk.injEq] at h
    exact absurd h.1 (by simp)
  | ok ops0 =>
    simp only [hi] at h
    cases hs : submitOk with
    | false =>
      rw [hs] at h
      simp only [Bool.false_eq_true, if_false, Prod.mk.injEq] at h
      exact absurd h.1 (by simp)
    | true =>
      rw [hs] at h
      simp only [if_true, Prod.mk.injEq, Except.ok.injEq] at h
      exact ⟨by rw [h.1], rfl⟩

/-- C5: whenever `init()` succeeds, its first emitted operation is the
create-account funding the escrow, and the funded reserve component equals
`reserveBase + 0.5 * (2 + (K - 1) + A)` display units (in stroops:
`reserveFeeStroops + 5000000 * (2 + K - 1 + A)`), where `K` is the owner's
total signer count and `A` the number of non-native assets among the
selling and buying assets; with a native selling asset the funding
additionally includes the selling amount. -/
theorem c5_reserve_formula (m : MediatorCfg) (acc : AccountResponse)
    (mediatorAddress : List Char) (submitOk : Bool) (reg : Registry)
    (ops : List Operation) (reg' : Registry)
    (h : init m (some acc) mediatorAddress submitOk reg = (.ok ops, reg')) :
    ops.head? = some (.createAccount m.source mediatorAddress
      ((if m.sellingAsset.isNative = true then m.sellingAmount else 0) +
        (m.reserveFeeStroops + 5000000 *
          ((2 + acc.signers.length - 1 +
            ([m.sellingAsset, m.buyingAsset].filter (fun a => !a.isNative)).length : Nat) : Int)))) := by
  obtain ⟨hio, -⟩ := init_ok_inv m acc mediatorAddress submitOk reg ops reg' h
  exact initOps_ok_head m acc mediatorAddress ops hio

/-- Witness for C5: three-signer owner selling XLM for AQUA with
reserveBase 5 — subentries `2 + (3-1) + 1 = 5`, reserve `7.5` XLM, escrow
funded with `10 + 7.5 = 17.5` XLM. -/
theorem c5_reserve_formula_witness :
    ([Operation.createAccount "GOWNER".toList "GMED".toList 175000000,
      Operation.changeTrust "GMED".toList (.issued "AQUA".toList "GISS".toList) none,
      Operation.setOptions "GMED".toList (some "GOWNER".toList) (some homeDomainChars)
        (some 4) (some 2) (some 3) (some 4) (some ("GOWNER".toList, 1)),
      Operation.setOptions "GMED".toList none none none none none none
        (some ("GS1".toList, 2)),
      Operation.setOptions "GMED".toList none none none none none none
        (some ("GS2".toList, 2))] : List Operation).head? =
      some (Operation.createAccount "GOWNER".toList "GMED".toList 175000000) := by
  have := c5_reserve_formula
    ⟨"GOWNER".toList, .native, .issued "AQUA".toList "GISS".toList, 100000000, 50000000,
      none, "msb_".toList⟩
    ⟨"GOWNER".toList,
      [⟨"native".toList, none, none, "100".toList⟩,
       ⟨"credit_alphanum4".toList, some "AQUA".toList, some "GISS".toList, "0".toList⟩],
      [⟨"GOWNER".toList, 0, "ed25519_public_key".toList⟩,
       ⟨"GS1".toList, 2, "ed25519_public_key".toList⟩,
       ⟨"GS2".toList, 2, "ed25519_public_key".toList⟩], ⟨2, 3, 4⟩⟩
    "GMED".toList true []
    [Operation.createAccount "GOWNER".toList "GMED".toList 175000000,
     Operation.changeTrust "GMED".toList (.issued "AQUA".toList "GISS".toList) none,
     Operation.setOptions "GMED".toList (some "GOWNER".toList) (some homeDomainChars)
       (some 4) (some 2) (some 3) (some 4) (some ("GOWNER".toList, 1)),
     Operation.setOptions "GMED".toList none none none none none none
       (some ("GS1".toList, 2)),
     Operation.setOptions "GMED".toList none none none none none none
       (some ("GS2".toList, 2))]
    [("msb_".toList ++ "GMED".toList, "GOWNER".toList)] (by decide)
  exact this.trans (by decide)

theorem filter_setOptions_map (med : List Char) (rest : List AccountSigner) :
    (rest.map (fun s => Operation.setOptions med none none none none none none
      (some (s.key, max 1 s.weight)))).filter isSetOptionsOp =
    rest.map (fun s => Operation.setOptions med none none none none none none
      (some (s.key, max 1 s.weight))) := by
  induction rest with
  | nil => rfl
  | cons a t ih => simp [isSetOptionsOp, ih]

theorem initOps_ok_filter (m : MediatorCfg) (acc : AccountResponse) (ma : List Char)
    (ops : List Operation) (s0 : AccountSigner) (rest : List AccountSigner)
    (hmulti : acc.signers.length > 1)
    (heds : acc.signers.filter (fun s => s.type == "ed25519_public_key".toList) = s0 :: rest)
    (h : initOps m acc ma = .ok ops) :
    ops.filter isSetOptionsOp =
      Operation.setOptions ma (some m.source) (some homeDomainChars)
        (some (max 1 (max acc.thresholds.high_threshold acc.thresholds.med_threshold)))
        (some acc.thresholds.low_threshold) (some acc.thresholds.med_threshold)
        (some acc.thresholds.high_threshold) (some (s0.key, max 1 s0.weight)) ::
      rest.map (fun s => Operation.setOptions ma none none none none none none
        (some (s.key, max 1 s.weight))) := by
  simp only [initOps] at h
  by_cases hnat : m.sellingAsset.isNative = true
  · rw [if_pos hnat] at h
    cases hft : findTrustline acc StellarAsset.native with
    | none =>
      simp only [hft, ebind_error] at h
      exact Except.noConfusion h
    | some tl =>
      simp only [hft] at h
      by_cases hbal : toStroopsD tl.balance <
          m.sellingAmount + (m.reserveFeeStroops + 5000000 * (initSubentries m acc : Int))
      · rw [if_pos hbal] at h
        simp only [ebind_error] at h
        exact Except.noConfusion h
      · rw [if_neg hbal] at h
        cases hfs : fromStroops
            (m.sellingAmount + (m.reserveFeeStroops + 5000000 * (initSubentries m acc : Int))) with
        | error e =>
          simp only [hfs, ebind_error] at h
          exact Except.noConfusion h
        | ok str =>
          simp only [hfs, ebind_ok] at h
          rw [if_pos hmulti] at h
          simp only [heds, ebind_ok, Except.ok.injEq] at h
          subst h
          simp only [List.filter_append]
          split_ifs <;>
            simp [isSetOptionsOp, filter_setOptions_map]
  · rw [if_neg hnat] at h
    cases hft : findTrustline acc StellarAsset.native with
    | none =>
      simp only [hft, ebind_error] at h
      exact Except.noConfusion h
    | some xtl =>
      simp only [hft] at h
      by_cases hshort : (match parseFloatStroops xtl.balance with
          | some v => decide (v < m.reserveFeeStroops + 5000000 * (initSubentries m acc : Int))
          | none => false) = true
      · rw [if_pos hshort] at h
        simp only [ebind_error] at h
        exact Except.noConfusion h
      · rw [if_neg hshort] at h
        cases hst : findTrustline acc m.sellingAsset with
        | none =>
          simp only [hst, ebind_error] at h
          exact Except.noConfusion h
        | some stl =>
          simp only [hst] at h
          by_cases hsb : toStroopsD stl.balance < m.sellingAmount
          · rw [if_pos hsb] at h
            simp only [ebind_error] at h
            exact Except.noConfusion h
          · rw [if_neg hsb] at h
            cases hfs : fromStroops m.sellingAmount with
            | error e =>
              simp only [hfs, ebind_error] at h
              exact Except.noConfusion h
            | ok str =>
              simp only [hfs, ebind_ok] at h
              rw [if_pos hmulti] at h
              simp only [heds, ebind_ok, Except.ok.injEq] at h
              subst h
              simp only [List.filter_append]
              split_ifs <;>
                simp [isSetOptionsOp, filter_setOptions_map]

/-- C7: for every multisig owner snapshot (more than one signer, with at
least one ed25519 signer), a successful `init()` emits exactly these
signer-setup operations on the escrow: one set-options operation copying
the owner's low/med/high thresholds verbatim, setting the escrow's master
weight to `max(1, high, med)`, recording the owner's address (as
inflation destination) for provenance, and adding the first ed25519 signer
at weight `max(1, weight)` — followed by one additional set-options
operation per remaining ed25519 signer, each at weight `max(1, weight)`. -/
theorem c7_multisig_signer_setup (m : MediatorCfg) (acc : AccountResponse)
    (med : List Char) (submitOk : Bool) (reg : Registry) (ops : List Operation)
    (reg' : Registry) (s0 : AccountSigner) (rest : List AccountSigner)
    (hmulti : acc.signers.length > 1)
    (heds : acc.signers.filter (fun s => s.type == "ed25519_public_key".toList) = s0 :: rest)
    (h : init m (some acc) med submitOk reg = (.ok ops, reg')) :
    ops.filter isSetOptionsOp =
      Operation.setOptions med (some m.source) (some homeDomainChars)
        (some (max 1 (max acc.thresholds.high_threshold acc.thresholds.med_threshold)))
        (some acc.thresholds.low_threshold) (some acc.thresholds.med_threshold)
        (some acc.thresholds.high_threshold) (some (s0.key, max 1 s0.weight)) ::
      rest.map (fun s => Operation.setOptions med none none none none none none
        (some (s.key, max 1 s.weight))) := by
  obtain ⟨hio, -⟩ := init_ok_inv m acc med submitOk reg ops reg' h
  exact initOps_ok_filter m acc med ops s0 rest hmulti heds hio

/-- Witness for C7: owner signers `[owner:0, s1:2, s2:2]`, thresholds
`(2,3,4)` — escrow master weight `4`, thresholds copied, three signer-set
operations with weights `1, 2, 2`. -/
theorem c7_multisig_signer_setup_witness :
    ([Operation.createAccount "GOWNER".toList "GMED".toList 175000000,
      Operation.changeTrust "GMED".toList (.issued "AQUA".toList "GISS".toList) none,
      Operation.setOptions "GMED".toList (some "GOWNER".toList) (some homeDomainChars)
        (some 4) (some 2) (some 3) (some 4) (some ("GOWNER".toList, 1)),
      Operation.setOptions "GMED".toList none none none none none none
        (some ("GS1".toList, 2)),
      Operation.setOptions "GMED".toList none none none none none none
        (some ("GS2".toList, 2))] : List Operation).filter isSetOptionsOp =
      [Operation.setOptions "GMED".toList (some "GOWNER".toList) (some homeDomainChars)
        (some 4) (some 2) (some 3) (some 4) (some ("GOWNER".toList, 1)),
       Operation.setOptions "GMED".toList none none none none none none
        (some ("GS1".toList, 2)),
       Operation.setOptions "GMED".toList none none none none none none
        (some ("GS2".toList, 2))] := by
  have := c7_multisig_signer_setup
    ⟨"GOWNER".toList, .native, .issued "AQUA".toList "GISS".toList, 100000000, 50000000,
      none, "msb_".toList⟩
    ⟨"GOWNER".toList,
      [⟨"native".toList, none, none, "100".toList⟩,
       ⟨"credit_alphanum4".toList, some "AQUA".toList, some "GISS".toList, "0".toList⟩],
      [⟨"GOWNER".toList, 0, "ed25519_public_key".toList⟩,
       ⟨"GS1".toList, 2, "ed25519_public_key".toList⟩,
       ⟨"GS2".toList, 2, "ed25519_public_key".toList⟩], ⟨2, 3, 4⟩⟩
    "GMED".toList true []
    [Operation.createAccount "GOWNER".toList "GMED".toList 175000000,
     Operation.changeTrust "GMED".toList (.issued "AQUA".toList "GISS".toList) none,
     Operation.setOptions "GMED".toList (some "GOWNER".toList) (some homeDomainChars)
       (some 4) (some 2) (some 3) (some 4) (some ("GOWNER".toList, 1)),
     Operation.setOptions "GMED".toList none none none none none none
       (some ("GS1".toList, 2)),
     Operation.setOptions "GMED".toList none none none none none none
       (some ("GS2".toList, 2))]
    [("msb_".toList ++ "GMED".toList, "GOWNER".toList)]
    ⟨"GOWNER".toList, 0, "ed25519_public_key".toList⟩
    [⟨"GS1".toList, 2, "ed25519_public_key".toList⟩,
     ⟨"GS2".toList, 2, "ed25519_public_key".toList⟩]
    (by decide) (by decide) (by decide)
  exact this.trans (by decide)

/-! ## `parseAsset` -/

theorem validAssetCode_no_seps (code : List Char) (h : validAssetCode code = true) :
    '-' ∉ code ∧ ':' ∉ code := by
  simp only [validAssetCode, Bool.and_eq_true, List.all_eq_true] at h
  constructor <;> intro hm <;> have := h.2 _ hm <;> revert this <;> decide

theorem validateCode_ok (code r : List Char) (h : validateCode code = .ok r) :
    r = code ∧ validAssetCode code = true := by
  unfold validateCode at h
  by_cases hv : validAssetCode code = true
  · rw [if_pos hv] at h
    cases h
    exact ⟨rfl, hv⟩
  · rw [if_neg hv] at h
    exact Except.noConfusion h

theorem validateAccount_ok (keyOk : List Char → Bool) (account : Option (List Char))
    (r : List Char) (h : validateAccount keyOk account = .ok r) :
    account = some r ∧ r ≠ [] ∧ keyOk r = true := by
  cases account with
  | none => exact Except.noConfusion h
  | some a =>
    simp only [validateAccount] at h
    by_cases hv : (!a.isEmpty && keyOk a) = true
    · rw [if_pos hv] at h
      cases h
      simp only [Bool.and_eq_true, Bool.not_eq_true'] at hv
      refine ⟨rfl, ?_, hv.2⟩
      intro hnil
      rw [hnil] at hv
      exact absurd hv.1 (by decide)
    · rw [if_neg hv] at h
      exact Except.noConfusion h

theorem contains_eq_false (l : List Char) (c : Char) (h : c ∉ l) : l.contains c = false := by
  rw [Bool.eq_false_iff]
  intro hc
  exact h (List.elem_iff.mp hc)

/-- C10 counterexample: with a validator accepting exactly `GISS`, the
dash input `AAA-GISS-ZZZ` parses successfully and is returned verbatim —
neither `XLM` nor the dash-canonical `CODE-ISSUER` form, since everything
after the first dash (`GISS-ZZZ`) is not a valid issuer. -/
theorem c10_counterexample_extra_segments :
    parseAsset (fun i => i == "GISS".toList) (.strA "AAA-GISS-ZZZ".toList) =
      .ok "AAA-GISS-ZZZ".toList ∧
    "AAA-GISS-ZZZ".toList ≠ "XLM".toList ∧
    isDashCanonical (fun i => i == "GISS".toList) "AAA-GISS-ZZZ".toList = false := by
  decide

/-- C10 (amended): for every issuer validator whose accepted keys contain
no dash and no colon (true of strkey ed25519 addresses), every successful
`parseAsset` result is either the literal `XLM` or a string whose first
dash-segment is a wellformed code and whose second dash-segment is a valid
nonempty issuer (colon inputs are rewritten to `CODE-ISSUER`; dash inputs
are returned verbatim, so segments after the second may survive); and
`parseAsset` is idempotent on its own outputs. -/
theorem c10_parse_asset_idempotent (keyOk : List Char → Bool)
    (hk : ∀ i, keyOk i = true → '-' ∉ i ∧ ':' ∉ i)
    (a : AssetArg) (r : List Char) (h : parseAsset keyOk a = .ok r) :
    parseAsset keyOk (.strA r) = .ok r ∧
    (r = "XLM".toList ∨
      (validAssetCode (splitFirst '-' r).1 = true ∧
        ∃ i, (splitFirst '-' r).2 = some i ∧ i ≠ [] ∧ keyOk i = true)) := by
  cases a with
  | balA b => exact Except.noConfusion h
  | otherA => exact Except.noConfusion h
  | strA s =>
    simp only [parseAsset] at h
    by_cases hlit : s = "XLM".toList ∨ s = "xlm".toList ∨ s = "native".toList
    · rw [if_pos hlit] at h
      cases h
      refine ⟨by simp [parseAsset], Or.inl rfl⟩
    · rw [if_neg hlit] at h
      by_cases hcol : s.contains ':' = true
      · rw [if_pos hcol] at h
        cases hvc : validateCode (splitFirst ':' s).1 with
        | error e =>
          simp only [hvc, ebind_error] at h
          exact Except.noConfusion h
        | ok code =>
          simp only [hvc, ebind_ok] at h
          cases hva : validateAccount keyOk (splitFirst ':' s).2 with
          | error e =>
            simp only [hva, ebind_error] at h
            exact Except.noConfusion h
          | ok issuer =>
            simp only [hva, ebind_ok] at h
            cases h
            obtain ⟨hc1, hcode⟩ := validateCode_ok _ _ hvc
            rw [← hc1] at hcode
            obtain ⟨-, hne, hkey⟩ := validateAccount_ok _ _ _ hva
            obtain ⟨hnd, hnc⟩ := validAssetCode_no_seps _ hcode
            obtain ⟨hid, hic⟩ := hk issuer hkey
            have hsplit : splitFirst '-' (code ++ '-' :: issuer) = (code, some issuer) := by
              rw [splitFirst_append '-' code issuer hnd, takeWhile_ne_sep '-' issuer hid]
            have hmemdash : '-' ∈ code ++ '-' :: issuer :=
              List.mem_append_right _ (List.mem_cons_self _ _)
            refine ⟨?_, Or.inr ⟨by rw [hsplit]; exact hcode, issuer, by rw [hsplit], hne, hkey⟩⟩
            have hnotlit : ¬(code ++ '-' :: issuer = "XLM".toList ∨
                code ++ '-' :: issuer = "xlm".toList ∨
                code ++ '-' :: issuer = "native".toList) := by
              rintro (h' | h' | h') <;> rw [h'] at hmemdash <;> exact absurd hmemdash (by decide)
            have hnocolon : (code ++ '-' :: issuer).contains ':' = false := by
              apply contains_eq_false
              intro hm
              rcases List.mem_append.mp hm with hm | hm
              · exact hnc hm
              · rcases List.mem_cons.mp hm with hm | hm
                · exact absurd hm (by decide)
                · exact hic hm
            have hhasdash : (code ++ '-' :: issuer).contains '-' = true :=
              List.elem_iff.mpr hmemdash
            simp only [parseAsset]
            rw [if_neg hnotlit, hnocolon]
            simp only [Bool.false_eq_true, if_false, hhasdash, if_true, hsplit]
            have hvc' : validateCode code = .ok code := by
              unfold validateCode
              rw [if_pos hcode]
            have hie : issuer.isEmpty = false := by
              cases issuer with
              | nil => exact absurd rfl hne
              | cons a t => rfl
            have hva' : validateAccount keyOk (some issuer) = .ok issuer := by
              simp only [validateAccount]
              rw [if_pos (by rw [hie, hkey]; rfl)]
            simp only [hvc', hva', ebind_ok]
      · rw [if_neg hcol] at h
        by_cases hdash : s.contains '-' = true
        · rw [if_pos hdash] at h
          cases hvc : validateCode (splitFirst '-' s).1 with
          | error e =>
            simp only [hvc, ebind_error] at h
            exact Except.noConfusion h
          | ok code =>
            simp only [hvc, ebind_ok] at h
            cases hva : validateAccount keyOk (splitFirst '-' s).2 with
            | error e =>
              simp only [hva, ebind_error] at h
              exact Except.noConfusion h
            | ok issuer =>
              simp only [hva, ebind_ok] at h
              cases h
              obtain ⟨hc1, hcode⟩ := validateCode_ok _ _ hvc
              obtain ⟨ha1, hne, hkey⟩ := validateAccount_ok _ _ _ hva
              refine ⟨?_, Or.inr ⟨hcode, issuer, ha1, hne, hkey⟩⟩
              simp only [parseAsset]
              rw [if_neg hlit, if_neg hcol, if_pos hdash]
              simp only [hvc, hva, ebind_ok]
        · rw [if_neg hdash] at h
          exact Except.noConfusion h

/-- Witness for C10: a colon input is rewritten to the dash form, and
re-parsing that output returns it unchanged. -/
theorem c10_parse_asset_idempotent_witness :
    parseAsset (fun i => i == "GISS".toList) (.strA "AQUA-GISS".toList) =
      .ok "AQUA-GISS".toList := by
  have hk : ∀ i, (fun i => i == "GISS".toList) i = true → '-' ∉ i ∧ ':' ∉ i := by
    intro i hi
    have : i = "GISS".toList := by simpa using hi
    subst this
    decide
  have h := c10_parse_asset_idempotent (fun i => i == "GISS".toList) hk
    (.strA "AQUA:GISS".toList) "AQUA-GISS".toList (by decide)
  exact h.1
-- sanity checks of the embedding on concrete values
example : toStroopsStr "10.5".toList true = .ok 105000000 := by decide
example : toStroopsStr "1.2.3".toList true = .ok 12000000 := by decide
example : toStroopsStr "1,2".toList true = .error .invalidFormat := by decide
example : toStroopsStr "-1".toList true = .ok (-10000000) := by decide
example : toStroopsStr "18446744073709.551616".toList true = .error .uint64Overflow := by decide
example : toStroopsStr "-922337203685.4775808".toList true = .ok (-9223372036854775808) := by decide
example : toStroopsStr "-922337203685.4775809".toList true = .error .int64Overflow := by decide
example : fromStroops 105000000 = .ok "10.5".toList := by decide
example : fromStroops 100000000 = .ok "10".toList := by decide
example : fromStroops (-1) = .error .invalidAmount := by decide
example : fromStroops 500000 = .ok "0.05".toList := by decide

